import Mathlib

/-!
Verification of the compiler-learning pipeline (lexer, parser, semantic
analyzer, code generator) against its natural-language specification.

The C sources are shallowly embedded: every definition below is translated
from a function in src/ (file and function named in its doc comment).
C machine integers are modelled as `Int`/`Nat` (no value in this code base
approaches overflow), C strings as `String`/`List Char` (the sources never
store an embedded NUL byte inside a string), and heap mutation as explicit
state passing.  Loops of the C code are modelled with an explicit structural
fuel argument; the top-level wrappers supply a fuel that is strictly larger
than the number of iterations any input can drive (each loop iteration of
the C code consumes at least one character / token), so the fuel-exhaustion
branches are unreachable for the supplied fuel.
-/

namespace CompilerLearning

/-- Token kinds, from src/src/lexer/token.h (enum TokenType).  Constructor
names follow the C enumerators. -/
inductive TokenType where
  | TOKEN_EOF
  | TOKEN_INT
  | TOKEN_FLOAT
  | TOKEN_CHAR
  | TOKEN_BOOL
  | TOKEN_VOID
  | TOKEN_IF
  | TOKEN_ELSE
  | TOKEN_WHILE
  | TOKEN_FOR
  | TOKEN_RETURN
  | TOKEN_BREAK
  | TOKEN_CONTINUE
  | TOKEN_TRUE
  | TOKEN_FALSE
  | TOKEN_NULL
  | TOKEN_IDENTIFIER
  | TOKEN_INTEGER_LITERAL
  | TOKEN_FLOAT_LITERAL
  | TOKEN_STRING_LITERAL
  | TOKEN_CHAR_LITERAL
  | TOKEN_ASSIGN
  | TOKEN_PLUS
  | TOKEN_MINUS
  | TOKEN_MULTIPLY
  | TOKEN_DIVIDE
  | TOKEN_MODULO
  | TOKEN_INCREMENT
  | TOKEN_DECREMENT
  | TOKEN_EQUAL
  | TOKEN_NOT_EQUAL
  | TOKEN_LESS
  | TOKEN_GREATER
  | TOKEN_LESS_EQUAL
  | TOKEN_GREATER_EQUAL
  | TOKEN_LOGICAL_AND
  | TOKEN_LOGICAL_OR
  | TOKEN_LOGICAL_NOT
  | TOKEN_BITWISE_AND
  | TOKEN_BITWISE_OR
  | TOKEN_BITWISE_XOR
  | TOKEN_BITWISE_NOT
  | TOKEN_LEFT_SHIFT
  | TOKEN_RIGHT_SHIFT
  | TOKEN_LEFT_PAREN
  | TOKEN_RIGHT_PAREN
  | TOKEN_LEFT_BRACE
  | TOKEN_RIGHT_BRACE
  | TOKEN_LEFT_BRACKET
  | TOKEN_RIGHT_BRACKET
  | TOKEN_SEMICOLON
  | TOKEN_COMMA
  | TOKEN_DOT
  | TOKEN_COLON
  | TOKEN_QUESTION
  | TOKEN_UNKNOWN
  | TOKEN_NEWLINE
  deriving DecidableEq, Fintype

/-- Error kinds of src/src/common/common.h (enum ErrorCode).
The third constructor corresponds to the C enumerator ERROR_SYNTAX
(renamed here; the C spelling is kept in this comment). -/
inductive ErrorCode where
  | ERROR_NONE
  | ERROR_LEXICAL
  | ERROR_SYNTACTIC
  | ERROR_SEMANTIC
  | ERROR_CODE_GENERATION
  | ERROR_MEMORY
  | ERROR_IO_KIND
  deriving DecidableEq

/-- Diagnostic record, from src/src/common/common.h (struct Error).  The
`file` field receives whatever C string pointer `error_create` is handed as
its last argument (the parser passes the offending lexeme there); NULL is
`none`. -/
structure Error where
  code : ErrorCode
  message : String
  line : Int
  column : Int
  file : Option String
  deriving DecidableEq

/-- Constructor `error_create` of src/src/common/common.c (allocation
assumed to succeed). -/
def error_create (code : ErrorCode) (message : String) (line column : Int)
    (file : Option String) : Error :=
  { code := code, message := message, line := line, column := column, file := file }

/-- Literal payload union of struct Token (token.h).  `zeroed` is the
memset-to-zero state of `token_create`; a float payload is represented by
the source text handed to `atof` (no claim in this development depends on
floating-point arithmetic). -/
inductive CLiteral where
  | zeroed
  | int_value (i : Int)
  | float_value (text : String)
  | string_value (s : String)
  | char_value (c : Char)
  deriving DecidableEq

/-- Union read `token->literal.int_value`; a zero-initialized union reads
as 0, matching the C memset. -/
def CLiteral.intValue : CLiteral → Int
  | .int_value i => i
  | _ => 0

/-- Union read `token->literal.string_value`; a zero-initialized union reads
as NULL, i.e. the empty payload is `""` only when explicitly stored. -/
def CLiteral.stringValue : CLiteral → Option String
  | .string_value s => some s
  | _ => none

/-- Token record, from src/src/lexer/token.h (struct Token). -/
structure Token where
  type : TokenType
  lexeme : String
  line : Int
  column : Int
  literal : CLiteral
  deriving DecidableEq

/-- Keyword table of src/src/lexer/token.c (`keywords`) together with the
scan of `token_is_keyword`: the reclassified kind when the lexeme matches a
keyword, otherwise the kind handed in (the lexer passes TOKEN_IDENTIFIER). -/
def token_is_keyword (lexeme : String) : Option TokenType :=
  if lexeme = "int" then some .TOKEN_INT
  else if lexeme = "float" then some .TOKEN_FLOAT
  else if lexeme = "char" then some .TOKEN_CHAR
  else if lexeme = "bool" then some .TOKEN_BOOL
  else if lexeme = "void" then some .TOKEN_VOID
  else if lexeme = "if" then some .TOKEN_IF
  else if lexeme = "else" then some .TOKEN_ELSE
  else if lexeme = "while" then some .TOKEN_WHILE
  else if lexeme = "for" then some .TOKEN_FOR
  else if lexeme = "return" then some .TOKEN_RETURN
  else if lexeme = "break" then some .TOKEN_BREAK
  else if lexeme = "continue" then some .TOKEN_CONTINUE
  else if lexeme = "true" then some .TOKEN_TRUE
  else if lexeme = "false" then some .TOKEN_FALSE
  else if lexeme = "null" then some .TOKEN_NULL
  else none

/-- Constructor `token_create` of token.c: stores kind, lexeme and position
and zeroes the literal union (allocation assumed to succeed). -/
def token_create (type : TokenType) (lexeme : String) (line column : Int) : Token :=
  { type := type, lexeme := lexeme, line := line, column := column, literal := .zeroed }

/-- ASCII digit test, the `isdigit` of ctype.h as used on source bytes. -/
def c_isdigit (c : Char) : Bool :=
  '0' ≤ c && c ≤ '9'

/-- ASCII letter test, the `isalpha` of ctype.h as used on source bytes. -/
def c_isalpha (c : Char) : Bool :=
  ('A' ≤ c && c ≤ 'Z') || ('a' ≤ c && c ≤ 'z')

/-- ASCII letter-or-digit test (`isalnum`). -/
def c_isalnum (c : Char) : Bool :=
  c_isalpha c || c_isdigit c

/-- Decimal parse of `atoi` as applied to the lexemes the lexer builds: an
optional sign followed by the longest prefix of decimal digits (the lexer
never passes leading whitespace). -/
def c_atoi (s : String) : Int :=
  let digits (l : List Char) : Int :=
    (l.takeWhile c_isdigit).foldl (fun acc c => acc * 10 + (c.toNat - '0'.toNat : Int)) 0
  match s.toList with
  | '-' :: rest => - digits rest
  | '+' :: rest => digits rest
  | l => digits l

/-- Constructor `token_create_with_literal` of token.c: as `token_create`,
then parses the literal payload from the lexeme according to the kind. -/
def token_create_with_literal (type : TokenType) (lexeme : String)
    (line column : Int) : Token :=
  let tok := token_create type lexeme line column
  match type with
  | .TOKEN_INTEGER_LITERAL => { tok with literal := .int_value (c_atoi lexeme) }
  | .TOKEN_FLOAT_LITERAL => { tok with literal := .float_value lexeme }
  | .TOKEN_STRING_LITERAL =>
      if lexeme.length ≥ 2 then
        { tok with literal := .string_value (String.mk ((lexeme.toList.drop 1).dropLast)) }
      else tok
  | .TOKEN_CHAR_LITERAL =>
      if lexeme.length ≥ 3 then
        { tok with literal := .char_value (lexeme.toList.getD 1 (Char.ofNat 0)) }
      else tok
  | _ => tok

/-- Lexer state, from src/src/lexer/lexer.h (struct Lexer).  The source is
the NUL-free byte sequence of the C string; reading at or past its end
yields the terminator '\x00', as `charAt` below encodes. -/
structure Lexer where
  source : List Char
  position : Nat
  line : Int
  column : Int
  current_char : Char
  had_error : Bool
  last_error : Option Error
  deriving DecidableEq

/-- Read `source[i]` of a NUL-terminated C string: past the end the
terminator is read. -/
def charAt (source : List Char) (i : Nat) : Char :=
  source.getD i '\x00'

/-- Constructor `lexer_create` of lexer.c (on a non-NULL source string). -/
def lexer_create (source : String) : Lexer :=
  { source := source.toList
    position := 0
    line := 1
    column := 1
    current_char := charAt source.toList 0
    had_error := false
    last_error := none }

/-- Cursor step `advance` of lexer.c: newline bumps the line and resets the
column, anything else bumps the column; the cached current character is
refreshed from the new position. -/
def advance (lx : Lexer) : Lexer :=
  let lx :=
    if lx.current_char = '\n' then
      { lx with line := lx.line + 1, column := 1 }
    else
      { lx with column := lx.column + 1 }
  { lx with position := lx.position + 1,
            current_char := charAt lx.source (lx.position + 1) }

/-- One-character lookahead `peek` of lexer.c. -/
def lexer_peek_char (lx : Lexer) : Char :=
  charAt lx.source (lx.position + 1)

/-- Whitespace skip `skip_whitespace` of lexer.c: spaces, tabs and carriage
returns are consumed, newlines are not.  The loop is bounded by `fuel`. -/
def skip_whitespace_loop : Nat → Lexer → Lexer
  | 0, lx => lx
  | fuel + 1, lx =>
      if lx.current_char ≠ '\x00' &&
         (lx.current_char = ' ' || lx.current_char = '\t' || lx.current_char = '\r') then
        skip_whitespace_loop fuel (advance lx)
      else lx

/-- Wrapper supplying sufficient fuel for `skip_whitespace` (each iteration
advances the cursor by one and the loop stops at the string end). -/
def skip_whitespace (lx : Lexer) : Lexer :=
  skip_whitespace_loop (lx.source.length + 1) lx

/-- Identifier scan loop of `read_identifier` in lexer.c, accumulating the
lexeme characters. -/
def read_identifier_loop : Nat → Lexer → List Char → Lexer × List Char
  | 0, lx, buf => (lx, buf)
  | fuel + 1, lx, buf =>
      if lx.current_char ≠ '\x00' &&
         (c_isalnum lx.current_char || lx.current_char = '_') then
        read_identifier_loop fuel (advance lx) (buf ++ [lx.current_char])
      else (lx, buf)

/-- Reader `read_identifier` of lexer.c: scans the identifier characters,
reclassifies keywords via `token_is_keyword`, and builds the token at the
start position. -/
def read_identifier (lx : Lexer) : Token × Lexer :=
  let start_line := lx.line
  let start_column := lx.column
  let (lx', buf) := read_identifier_loop (lx.source.length + 1) lx []
  let lexeme := String.mk buf
  let type := (token_is_keyword lexeme).getD .TOKEN_IDENTIFIER
  (token_create type lexeme start_line start_column, lx')

/-- Number scan loop of `read_number` in lexer.c: digits with at most one
decimal point; returns the lexeme characters and whether a point was seen. -/
def read_number_loop : Nat → Lexer → List Char → Bool → Lexer × List Char × Bool
  | 0, lx, buf, has_decimal => (lx, buf, has_decimal)
  | fuel + 1, lx, buf, has_decimal =>
      if lx.current_char = '\x00' then (lx, buf, has_decimal)
      else if c_isdigit lx.current_char then
        read_number_loop fuel (advance lx) (buf ++ [lx.current_char]) has_decimal
      else if lx.current_char = '.' && !has_decimal then
        read_number_loop fuel (advance lx) (buf ++ [lx.current_char]) true
      else (lx, buf, has_decimal)

/-- Reader `read_number` of lexer.c: the decimal point selects a float
literal, otherwise an integer literal; the payload is parsed at creation
time by `token_create_with_literal`. -/
def read_number (lx : Lexer) : Token × Lexer :=
  let start_line := lx.line
  let start_column := lx.column
  let (lx', buf, has_decimal) := read_number_loop (lx.source.length + 1) lx [] false
  let lexeme := String.mk buf
  let type := if has_decimal then TokenType.TOKEN_FLOAT_LITERAL
              else TokenType.TOKEN_INTEGER_LITERAL
  (token_create_with_literal type lexeme start_line start_column, lx')

/-- Escape translation of the switch inside `read_string` (lexer.c): the
character following a backslash. -/
def escapeChar (c : Char) : Char :=
  if c = 'n' then '\n'
  else if c = 't' then '\t'
  else if c = 'r' then '\r'
  else if c = '\\' then '\\'
  else if c = '"' then '"'
  else c

/-- Body loop of `read_string` in lexer.c: consume characters up to a
closing quote or the end of input, translating escapes. -/
def read_string_loop : Nat → Lexer → List Char → Lexer × List Char
  | 0, lx, buf => (lx, buf)
  | fuel + 1, lx, buf =>
      if lx.current_char = '\x00' || lx.current_char = '"' then (lx, buf)
      else if lx.current_char = '\\' then
        let lx1 := advance lx
        let buf1 := if lx1.current_char ≠ '\x00' then buf ++ [escapeChar lx1.current_char] else buf
        read_string_loop fuel (advance lx1) buf1
      else
        read_string_loop fuel (advance lx) (buf ++ [lx.current_char])

/-- Reader `read_string` of lexer.c: consumes the opening quote, scans the
body, consumes a closing quote when present and otherwise records the
sticky Lexical diagnostic; the returned token is always a string literal
whose lexeme wraps the consumed content in double quotes, and whose string
payload is overwritten with the consumed content. -/
def read_string (lx : Lexer) : Token × Lexer :=
  let start_line := lx.line
  let start_column := lx.column
  let lx0 := advance lx
  let (lx1, buf) := read_string_loop (lx0.source.length + 2) lx0 []
  let lx2 :=
    if lx1.current_char = '"' then advance lx1
    else { lx1 with
             had_error := true,
             last_error := some (error_create .ERROR_LEXICAL
               "Unterminated string literal" start_line start_column none) }
  let content := String.mk buf
  let lexeme := "\"" ++ content ++ "\""
  let tok := token_create_with_literal .TOKEN_STRING_LITERAL lexeme start_line start_column
  ({ tok with literal := .string_value content }, lx2)

/-- Reader `read_char` of lexer.c: one (possibly escaped) character between
single quotes; an unterminated literal records the sticky Lexical
diagnostic and yields a TOKEN_UNKNOWN token for the opening quote. -/
def read_char (lx : Lexer) : Token × Lexer :=
  let start_line := lx.line
  let start_column := lx.column
  let lx0 := advance lx
  if lx0.current_char = '\x00' then
    (token_create .TOKEN_UNKNOWN "'" start_line start_column,
     { lx0 with
         had_error := true,
         last_error := some (error_create .ERROR_LEXICAL
           "Unterminated character literal" start_line start_column none) })
  else
    let (content, lx1) :=
      if lx0.current_char = '\\' then
        let lxe := advance lx0
        let c :=
          if lxe.current_char = '\x00' then Char.ofNat 0
          else if lxe.current_char = 'n' then '\n'
          else if lxe.current_char = 't' then '\t'
          else if lxe.current_char = 'r' then '\r'
          else if lxe.current_char = '\\' then '\\'
          else if lxe.current_char = '\'' then '\''
          else if lxe.current_char = '"' then '"'
          else lxe.current_char
        (c, lxe)
      else (lx0.current_char, lx0)
    let lx2 := advance lx1
    if lx2.current_char = '\'' then
      let lexeme := String.mk ['\'', content, '\'']
      let tok := token_create_with_literal .TOKEN_CHAR_LITERAL lexeme start_line start_column
      ({ tok with literal := .char_value content }, advance lx2)
    else
      (token_create .TOKEN_UNKNOWN "'" start_line start_column,
       { lx2 with
           had_error := true,
           last_error := some (error_create .ERROR_LEXICAL
             "Unterminated character literal" start_line start_column none) })

/-- Reader `read_operator` of lexer.c: two-character operators first
(longest match), then single-character operators and delimiters; anything
unrecognized becomes TOKEN_UNKNOWN. -/
def read_operator (lx : Lexer) : Token × Lexer :=
  let start_line := lx.line
  let start_column := lx.column
  let current := lx.current_char
  let next := lexer_peek_char lx
  if current = '=' then
    if next = '=' then (token_create .TOKEN_EQUAL "==" start_line start_column, advance (advance lx))
    else (token_create .TOKEN_ASSIGN "=" start_line start_column, advance lx)
  else if current = '!' then
    if next = '=' then (token_create .TOKEN_NOT_EQUAL "!=" start_line start_column, advance (advance lx))
    else (token_create .TOKEN_LOGICAL_NOT "!" start_line start_column, advance lx)
  else if current = '&' then
    if next = '&' then (token_create .TOKEN_LOGICAL_AND "&&" start_line start_column, advance (advance lx))
    else (token_create .TOKEN_BITWISE_AND "&" start_line start_column, advance lx)
  else if current = '|' then
    if next = '|' then (token_create .TOKEN_LOGICAL_OR "||" start_line start_column, advance (advance lx))
    else (token_create .TOKEN_BITWISE_OR "|" start_line start_column, advance lx)
  else if current = '^' then (token_create .TOKEN_BITWISE_XOR "^" start_line start_column, advance lx)
  else if current = '~' then (token_create .TOKEN_BITWISE_NOT "~" start_line start_column, advance lx)
  else if current = '+' then
    if next = '+' then (token_create .TOKEN_INCREMENT "++" start_line start_column, advance (advance lx))
    else (token_create .TOKEN_PLUS "+" start_line start_column, advance lx)
  else if current = '-' then
    if next = '-' then (token_create .TOKEN_DECREMENT "--" start_line start_column, advance (advance lx))
    else (token_create .TOKEN_MINUS "-" start_line start_column, advance lx)
  else if current = '<' then
    if next = '=' then (token_create .TOKEN_LESS_EQUAL "<=" start_line start_column, advance (advance lx))
    else if next = '<' then (token_create .TOKEN_LEFT_SHIFT "<<" start_line start_column, advance (advance lx))
    else (token_create .TOKEN_LESS "<" start_line start_column, advance lx)
  else if current = '>' then
    if next = '=' then (token_create .TOKEN_GREATER_EQUAL ">=" start_line start_column, advance (advance lx))
    else if next = '>' then (token_create .TOKEN_RIGHT_SHIFT ">>" start_line start_column, advance (advance lx))
    else (token_create .TOKEN_GREATER ">" start_line start_column, advance lx)
  else
    let lexeme := String.mk [current]
    let type :=
      if current = '*' then TokenType.TOKEN_MULTIPLY
      else if current = '/' then TokenType.TOKEN_DIVIDE
      else if current = '%' then TokenType.TOKEN_MODULO
      else if current = '(' then TokenType.TOKEN_LEFT_PAREN
      else if current = ')' then TokenType.TOKEN_RIGHT_PAREN
      else if current = '\x7b' then TokenType.TOKEN_LEFT_BRACE
      else if current = '\x7d' then TokenType.TOKEN_RIGHT_BRACE
      else if current = '[' then TokenType.TOKEN_LEFT_BRACKET
      else if current = ']' then TokenType.TOKEN_RIGHT_BRACKET
      else if current = ';' then TokenType.TOKEN_SEMICOLON
      else if current = ',' then TokenType.TOKEN_COMMA
      else if current = '.' then TokenType.TOKEN_DOT
      else if current = ':' then TokenType.TOKEN_COLON
      else if current = '?' then TokenType.TOKEN_QUESTION
      else if current = '\n' then TokenType.TOKEN_NEWLINE
      else TokenType.TOKEN_UNKNOWN
    (token_create type lexeme start_line start_column, advance lx)

/-- Pull operation `lexer_next_token` of lexer.c: dispatches to the reader
for the character class under the cursor; the end of input yields TOKEN_EOF
without advancing, so further calls keep yielding TOKEN_EOF. -/
def lexer_next_token (lx : Lexer) : Token × Lexer :=
  if lx.current_char = '\x00' then
    (token_create .TOKEN_EOF "" lx.line lx.column, lx)
  else
    let lx := skip_whitespace lx
    if lx.current_char = '\n' then
      (token_create .TOKEN_NEWLINE "\n" lx.line lx.column, advance lx)
    else if lx.current_char = '\x00' then
      (token_create .TOKEN_EOF "" lx.line lx.column, lx)
    else if c_isalpha lx.current_char || lx.current_char = '_' then
      read_identifier lx
    else if c_isdigit lx.current_char then
      read_number lx
    else if lx.current_char = '"' then
      read_string lx
    else if lx.current_char = '\'' then
      read_char lx
    else
      read_operator lx

/-- Lookahead `lexer_peek_token` of lexer.c: runs `lexer_next_token`, then
restores position, line, column and current character to their saved
values.  The sticky error fields are not saved and keep whatever the inner
call left in them. -/
def lexer_peek_token (lx : Lexer) : Token × Lexer :=
  let (tok, lx') := lexer_next_token lx
  (tok, { lx' with
            position := lx.position
            line := lx.line
            column := lx.column
            current_char := lx.current_char })

/-! ## Parser and AST, from src/src/parser/parser.h and parser.c -/

/-- AST node, from parser.h (struct ASTNode) restricted to the variants the
minimal parser of parser.c creates and the later stages consume.  Each
variant owns its children directly; the Program node's child list stands
for its first_child/next_sibling chain.  The `token` field may be NULL
(`none`), as in `ast_node_create(NODE_ERROR, NULL)`. -/
inductive ASTNode where
  | program (children : List ASTNode)
  | literal (token : Option Token) (value : CLiteral)
  | identifier (token : Option Token) (name : String)
  | binary (token : Option Token) (left right : ASTNode) (operator : String)
  | unary (token : Option Token) (operand : ASTNode) (operator : String)
  | variable_declaration (token : Option Token) (type_name name : String)
      (initializer : Option ASTNode) (is_mutable : Bool)
  | error (token : Option Token)

/-- Tag test `node->type == NODE_ERROR`. -/
def ASTNode.isErrorNode : ASTNode → Bool
  | .error _ => true
  | _ => false

/-- Constructor `ast_node_create_binary` of parser.c. -/
def ast_node_create_binary (token : Option Token) (left right : ASTNode)
    (operator : String) : ASTNode :=
  ASTNode.binary token left right operator

/-- Constructor `ast_node_create_literal_int` of parser.c. -/
def ast_node_create_literal_int (token : Option Token) (value : Int) : ASTNode :=
  ASTNode.literal token (.int_value value)

/-- Parser state, from parser.h (struct Parser).  The lexer behind the
parser is abstracted to the stream of tokens it will hand out: the only
operation parser.c performs on its lexer is `lexer_next_token`, and an
exhausted lexer keeps returning TOKEN_EOF, which `stream_next` mirrors on
the empty list.  The `peek_token` field of the C struct stays NULL in
parser.c and is omitted. -/
structure ParserState where
  stream : List Token
  current_token : Option Token
  had_error : Bool
  last_error : Option Error

/-- Pull one token from the stream; an exhausted stream yields TOKEN_EOF
forever, as `lexer_next_token` does at the end of input. -/
def stream_next : List Token → Token × List Token
  | [] => (token_create .TOKEN_EOF "" 0 0, [])
  | t :: ts => (t, ts)

/-- Constructor `parser_create` of parser.c: no token fetched yet, no
error. -/
def parser_create (ts : List Token) : ParserState :=
  { stream := ts, current_token := none, had_error := false, last_error := none }

/-- Consumption step `parser->current_token = lexer_next_token(parser->lexer)`
as performed throughout parser.c. -/
def parser_advance (p : ParserState) : ParserState :=
  let (t, ts) := stream_next p.stream
  { p with current_token := some t, stream := ts }

/-- Operator classification `parser_is_binary_operator` of parser.c.
TOKEN_ASSIGN is not in the list. -/
def parser_is_binary_operator (type : TokenType) : Bool :=
  match type with
  | .TOKEN_PLUS | .TOKEN_MINUS | .TOKEN_MULTIPLY | .TOKEN_DIVIDE | .TOKEN_MODULO
  | .TOKEN_EQUAL | .TOKEN_NOT_EQUAL | .TOKEN_LESS | .TOKEN_LESS_EQUAL
  | .TOKEN_GREATER | .TOKEN_GREATER_EQUAL | .TOKEN_LOGICAL_AND | .TOKEN_LOGICAL_OR
  | .TOKEN_BITWISE_AND | .TOKEN_BITWISE_OR | .TOKEN_BITWISE_XOR
  | .TOKEN_LEFT_SHIFT | .TOKEN_RIGHT_SHIFT => true
  | _ => false

/-- Precedence table `parser_get_precedence` of parser.c (higher binds
tighter; 0 marks a non-operator). -/
def parser_get_precedence (type : TokenType) : Int :=
  match type with
  | .TOKEN_ASSIGN => 1
  | .TOKEN_LOGICAL_OR => 2
  | .TOKEN_LOGICAL_AND => 3
  | .TOKEN_EQUAL | .TOKEN_NOT_EQUAL => 4
  | .TOKEN_LESS | .TOKEN_LESS_EQUAL | .TOKEN_GREATER | .TOKEN_GREATER_EQUAL => 5
  | .TOKEN_PLUS | .TOKEN_MINUS => 6
  | .TOKEN_MULTIPLY | .TOKEN_DIVIDE | .TOKEN_MODULO => 7
  | .TOKEN_LEFT_SHIFT | .TOKEN_RIGHT_SHIFT => 8
  | .TOKEN_BITWISE_AND => 9
  | .TOKEN_BITWISE_XOR => 10
  | .TOKEN_BITWISE_OR => 11
  | _ => 0

/-- Diagnostic installed when the structural fuel of the embedding runs
out.  The C parser has no fuel: every loop iteration and every recursive
descent first consumes a token, so its recursion depth is bounded by the
input length, and the wrappers below hand the mutual recursion more fuel
than any input can use.  The unreachable exhaustion branch is mapped to the
parser's syntax-error policy (sticky flag, one diagnostic, Error node). -/
def fuel_exhausted_error : Error :=
  error_create .ERROR_SYNTACTIC "Unexpected token in expression" 0 0 none

mutual

/-- Primary-expression parser `parser_parse_primary` of parser.c:
parenthesized expressions, integer/float/string literals, identifiers,
true/false (as integer 1/0); anything else records the sticky Syntax
diagnostic (the offending lexeme travels in `error_create`'s last
argument) and yields an Error node without consuming the token. -/
def parser_parse_primary : Nat → ParserState → ASTNode × ParserState
  | 0, p => (ASTNode.error none,
      { p with had_error := true, last_error := some fuel_exhausted_error })
  | fuel + 1, p =>
    match p.current_token with
    | none => (ASTNode.error none, p)
    | some token =>
      if token.type = .TOKEN_LEFT_PAREN then
        let p1 := parser_advance p
        let (expr, p2) := parser_parse_expression fuel p1
        if expr.isErrorNode then (expr, p2)
        else
          match p2.current_token with
          | some closing_paren =>
            if closing_paren.type = .TOKEN_RIGHT_PAREN then (expr, parser_advance p2)
            else
              (ASTNode.error (some closing_paren),
               { p2 with
                   had_error := true,
                   last_error := some (error_create .ERROR_SYNTACTIC
                     "Expected closing parenthesis" closing_paren.line
                     closing_paren.column (some closing_paren.lexeme)) })
          | none =>
            (ASTNode.error none,
             { p2 with
                 had_error := true,
                 last_error := some (error_create .ERROR_SYNTACTIC
                   "Expected closing parenthesis" 0 0 none) })
      else if token.type = .TOKEN_INTEGER_LITERAL then
        (ast_node_create_literal_int (some token) token.literal.intValue, parser_advance p)
      else if token.type = .TOKEN_FLOAT_LITERAL then
        (ASTNode.literal (some token) token.literal, parser_advance p)
      else if token.type = .TOKEN_STRING_LITERAL then
        (ASTNode.literal (some token) token.literal, parser_advance p)
      else if token.type = .TOKEN_IDENTIFIER then
        (ASTNode.identifier (some token) token.lexeme, parser_advance p)
      else if token.type = .TOKEN_TRUE then
        (ast_node_create_literal_int (some token) 1, parser_advance p)
      else if token.type = .TOKEN_FALSE then
        (ast_node_create_literal_int (some token) 0, parser_advance p)
      else
        (ASTNode.error (some token),
         { p with
             had_error := true,
             last_error := some (error_create .ERROR_SYNTACTIC
               "Unexpected token in expression" token.line token.column
               (some token.lexeme)) })

/-- Precedence-climbing entry `parser_parse_expression_precedence` of
parser.c: parse a primary, then fold binary operators in the loop below. -/
def parser_parse_expression_precedence :
    Nat → Int → ParserState → ASTNode × ParserState
  | 0, _, p => (ASTNode.error none,
      { p with had_error := true, last_error := some fuel_exhausted_error })
  | fuel + 1, precedence, p =>
    match p.current_token with
    | none => (ASTNode.error none, p)
    | some _ =>
      let (left, p1) := parser_parse_primary fuel p
      if left.isErrorNode then (left, p1)
      else parser_precedence_loop fuel precedence left p1

/-- While-loop body of `parser_parse_expression_precedence` (parser.c lines
245-274): while the current token is a binary operator of precedence at
least the threshold, consume it, parse the right side with threshold one
higher, and fold a BinaryExpression carrying the operator lexeme. -/
def parser_precedence_loop :
    Nat → Int → ASTNode → ParserState → ASTNode × ParserState
  | 0, _, left, p => (left, p)
  | fuel + 1, precedence, left, p =>
    match p.current_token with
    | none => (left, p)
    | some token =>
      if parser_is_binary_operator token.type then
        if parser_get_precedence token.type < precedence then (left, p)
        else
          let operator := token.lexeme
          let p1 := parser_advance p
          let (right, p2) :=
            parser_parse_expression_precedence fuel
              (parser_get_precedence token.type + 1) p1
          if right.isErrorNode then (right, p2)
          else
            parser_precedence_loop fuel precedence
              (ast_node_create_binary (some token) left right operator) p2
      else (left, p)

/-- Expression entry `parser_parse_expression` of parser.c: parse at the
lowest precedence threshold 1. -/
def parser_parse_expression : Nat → ParserState → ASTNode × ParserState
  | 0, p => (ASTNode.error none,
      { p with had_error := true, last_error := some fuel_exhausted_error })
  | fuel + 1, p =>
    match p.current_token with
    | none => (ASTNode.error none, p)
    | some _ => parser_parse_expression_precedence fuel 1 p

end

/-- Top-level `parser_parse` of parser.c: fetch the first token if none is
held yet; end of input yields an Error node (with no diagnostic recorded);
otherwise parse one expression.  The fuel handed to the recursion exceeds
what any input can consume (each descent step consumes a token). -/
def parser_parse (p : ParserState) : ASTNode × ParserState :=
  let p := if p.current_token.isNone then parser_advance p else p
  match p.current_token with
  | none => (ASTNode.error none, p)
  | some t =>
    if t.type = .TOKEN_EOF then (ASTNode.error none, p)
    else parser_parse_expression (2 * p.stream.length + 4) p

/-! ## Semantic analyzer, from src/src/semantic/semantic.h and semantic.c -/

/-- Data types of semantic.h (enum DataType). -/
inductive DataType where
  | TYPE_INT
  | TYPE_FLOAT
  | TYPE_STRING
  | TYPE_CHAR
  | TYPE_BOOL
  | TYPE_VOID
  | TYPE_UNKNOWN
  | TYPE_ERROR
  deriving DecidableEq, Fintype

/-- Symbol kinds of semantic.h (enum SymbolType). -/
inductive SymbolType where
  | SYMBOL_VARIABLE
  | SYMBOL_FUNCTION
  | SYMBOL_PARAMETER
  | SYMBOL_TYPE
  deriving DecidableEq

/-- Kind-specific payload union of struct Symbol (semantic.h).  The C
struct stores the kind tag and the union separately but every constructor
sets them consistently; the payload variant here determines the tag. -/
inductive SymbolData where
  | variable_data (type_name : String) (is_mutable : Bool)
  | function_data (return_type : String)
  | parameter_data (type_name : String) (position : Int)
  | type_data
  deriving DecidableEq

/-- Kind tag `symbol->type` read off the payload variant. -/
def SymbolData.tag : SymbolData → SymbolType
  | .variable_data _ _ => .SYMBOL_VARIABLE
  | .function_data _ => .SYMBOL_FUNCTION
  | .parameter_data _ _ => .SYMBOL_PARAMETER
  | .type_data => .SYMBOL_TYPE

/-- Symbol record of semantic.h (struct Symbol).  The function-parameter
list is not touched by any code under verification and is omitted from the
payload. -/
structure Symbol where
  name : String
  data : SymbolData
  scope_level : Int
  line : Int
  column : Int
  deriving DecidableEq

/-- Constructor `symbol_create_variable` of semantic.c: scope level 0 until
the symbol is added to a scope (the functional subset never rewrites it). -/
def symbol_create_variable (name type_name : String) (is_mutable : Bool)
    (line column : Int) : Symbol :=
  { name := name, data := .variable_data type_name is_mutable,
    scope_level := 0, line := line, column := column }

/-- Symbol table of semantic.h (struct SymbolTable): an insertion-ordered
list of symbols, a scope level, and a non-owning parent reference.  The C
parent pointer is materialized as the parent table value: within the
analyzer's discipline (symbols are only ever added to the current, topmost
scope) a parent table's contents never change while a child exists, so the
snapshot taken at `enter_scope` time agrees with the pointed-to table. -/
inductive SymbolTable where
  | mk (symbols : List Symbol) (scope_level : Int) (parent : Option SymbolTable)

/-- Field accessor `table->symbols`. -/
def SymbolTable.symbols : SymbolTable → List Symbol
  | .mk s _ _ => s

/-- Field accessor `table->scope_level`. -/
def SymbolTable.scope_level : SymbolTable → Int
  | .mk _ l _ => l

/-- Field accessor `table->parent`. -/
def SymbolTable.parent : SymbolTable → Option SymbolTable
  | .mk _ _ p => p

/-- Constructor `symbol_table_create` of semantic.c: empty, given scope
level, no parent. -/
def symbol_table_create (scope_level : Int) : SymbolTable :=
  .mk [] scope_level none

/-- Append `symbol_table_add` of semantic.c: the symbol goes after all
existing entries (capacity growth is a no-op in the model). -/
def symbol_table_add (table : SymbolTable) (symbol : Symbol) : SymbolTable :=
  .mk (table.symbols ++ [symbol]) table.scope_level table.parent

/-- Local scan `symbol_table_lookup_local` of semantic.c: a linear walk in
insertion order returning the first name match. -/
def symbol_table_lookup_local (table : SymbolTable) (name : String) : Option Symbol :=
  table.symbols.find? (fun s => s.name = name)

/-- Lookup `symbol_table_lookup` of semantic.c: local scan first, then the
parent chain (the chain walk is the body of `symbol_table_lookup_global`,
inlined here so the recursion is structural on the parent). -/
def symbol_table_lookup : SymbolTable → String → Option Symbol
  | .mk sy lv none, name => symbol_table_lookup_local (.mk sy lv none) name
  | .mk sy lv (some parent), name =>
    match symbol_table_lookup_local (.mk sy lv (some parent)) name with
    | some found => some found
    | none => symbol_table_lookup parent name

/-- Parent-chain lookup `symbol_table_lookup_global` of semantic.c:
not-found at the end of the chain, otherwise the full lookup on the
parent. -/
def symbol_table_lookup_global (table : SymbolTable) (name : String) : Option Symbol :=
  match table with
  | .mk _ _ none => none
  | .mk _ _ (some parent) => symbol_table_lookup parent name

/-- Analyzer state of semantic.h (struct SemanticAnalyzer).  The C struct
stores the scope stack as a growable array with the global table at index 0
and the current scope both at the top index and in `current_scope`; all
code paths keep the two in sync, so the model stores the stack with the
top at the head of the list and reads the current scope off the head. -/
structure SemanticAnalyzer where
  scope_stack : List SymbolTable
  had_error : Bool
  last_error : Option Error

/-- Constructor `semantic_analyzer_create` of semantic.c: one global table
at scope level 0. -/
def semantic_analyzer_create : SemanticAnalyzer :=
  { scope_stack := [symbol_table_create 0], had_error := false, last_error := none }

/-- Accessor `semantic_analyzer_current_scope` / `analyzer->current_scope`:
the top of the scope stack. -/
def semantic_analyzer_current_scope (a : SemanticAnalyzer) : SymbolTable :=
  a.scope_stack.headD (symbol_table_create 0)

/-- Scope push `semantic_analyzer_enter_scope` of semantic.c: a fresh table
at the current level plus one, with the current table as parent, becomes
the new top of the stack and the current scope. -/
def semantic_analyzer_enter_scope (a : SemanticAnalyzer) : SemanticAnalyzer :=
  let current := semantic_analyzer_current_scope a
  let new_scope := SymbolTable.mk [] (current.scope_level + 1) (some current)
  { a with scope_stack := new_scope :: a.scope_stack }

/-- Scope pop `semantic_analyzer_exit_scope` of semantic.c: refused while
the stack holds only the global table; otherwise the top table is popped
(destroyed) and the next stack entry becomes current. -/
def semantic_analyzer_exit_scope (a : SemanticAnalyzer) : SemanticAnalyzer :=
  match a.scope_stack with
  | [] => a
  | [g] => { a with scope_stack := [g] }
  | _ :: rest => { a with scope_stack := rest }

/-- Registration of a declaration into the current scope, as the tests and
the analyzer perform it: `symbol_table_add(analyzer->current_scope, sym)`.
The C call mutates the table both views point to; the model rebuilds the
stack head. -/
def semantic_analyzer_add_symbol (a : SemanticAnalyzer) (s : Symbol) : SemanticAnalyzer :=
  match a.scope_stack with
  | [] => a
  | top :: rest => { a with scope_stack := symbol_table_add top s :: rest }

/-- Type inference `ast_node_get_type` of semantic.c: literals by token
kind; identifiers by symbol lookup in the current scope chain with the
declared type-name string matched exactly; binary expressions by the
same-numeric-type rule first, then the comparison rule, then the logical
rule, else TYPE_ERROR; every other node kind is TYPE_UNKNOWN. -/
def ast_node_get_type (node : ASTNode) (a : SemanticAnalyzer) : DataType :=
  match node with
  | .literal token _ =>
    match token with
    | some t =>
      if t.type = .TOKEN_INTEGER_LITERAL then .TYPE_INT
      else if t.type = .TOKEN_FLOAT_LITERAL then .TYPE_FLOAT
      else if t.type = .TOKEN_STRING_LITERAL then .TYPE_STRING
      else if t.type = .TOKEN_TRUE || t.type = .TOKEN_FALSE then .TYPE_BOOL
      else .TYPE_UNKNOWN
    | none => .TYPE_UNKNOWN
  | .identifier _ name =>
    match symbol_table_lookup (semantic_analyzer_current_scope a) name with
    | some symbol =>
      match symbol.data with
      | .variable_data type_name _ =>
        if type_name = "int" then .TYPE_INT
        else if type_name = "float" then .TYPE_FLOAT
        else if type_name = "string" then .TYPE_STRING
        else if type_name = "bool" then .TYPE_BOOL
        else if type_name = "void" then .TYPE_VOID
        else .TYPE_UNKNOWN
      | _ => .TYPE_UNKNOWN
    | none => .TYPE_UNKNOWN
  | .binary _ left right operator =>
    let left_type := ast_node_get_type left a
    let right_type := ast_node_get_type right a
    if left_type = right_type && (left_type = .TYPE_INT || left_type = .TYPE_FLOAT) then
      left_type
    else if operator = "==" || operator = "!=" || operator = "<" ||
            operator = "<=" || operator = ">" || operator = ">=" then
      .TYPE_BOOL
    else if operator = "&&" || operator = "||" then
      .TYPE_BOOL
    else
      .TYPE_ERROR
  | _ => .TYPE_UNKNOWN

/-- Driver `semantic_analyze` of semantic.c: success iff the root's
inferred type is not TYPE_ERROR. -/
def semantic_analyze (node : ASTNode) (a : SemanticAnalyzer) : Bool :=
  ast_node_get_type node a ≠ .TYPE_ERROR

/-! ## Code generator, from src/src/codegen/codegen.h and codegen.c -/

/-- Result codes of codegen.h (enum CodeGenResult). -/
inductive CodeGenResult where
  | CODEGEN_SUCCESS
  | CODEGEN_ERROR_NULL_ANALYZER
  | CODEGEN_ERROR_NULL_AST
  | CODEGEN_ERROR_UNSUPPORTED_NODE
  | CODEGEN_ERROR_SYMBOL_NOT_FOUND
  | CODEGEN_ERROR_TYPE_MISMATCH
  | CODEGEN_ERROR_INVALID_EXPRESSION
  deriving DecidableEq

/-- Generator state of codegen.h (struct CodeGenerator).  The output file
is modelled as a flag (opened or not) plus the list of lines written so
far, one entry per fprintf of the C code, without the trailing newline.
Registers are tracked by the 16 in-use flags; the label and temporary
counters are carried but never consulted by the functional subset. -/
structure CodeGenerator where
  symbol_table : SymbolTable
  output_open : Bool
  output : List String
  had_error : Bool
  last_error : String
  label_counter : Int
  stack_offset : Int
  temp_var_counter : Int
  used_registers : List Bool

/-- Constructor `code_generator_create` of codegen.c (on a non-NULL symbol
table): no output sink, zero counters, all registers free. -/
def code_generator_create (symbol_table : SymbolTable) : CodeGenerator :=
  { symbol_table := symbol_table
    output_open := false
    output := []
    had_error := false
    last_error := ""
    label_counter := 0
    stack_offset := 0
    temp_var_counter := 0
    used_registers := List.replicate 16 false }

/-- Sink attachment `code_generator_set_output` of codegen.c, with the
fopen assumed to succeed: any previously opened sink is dropped and an
empty one installed. -/
def code_generator_set_output (g : CodeGenerator) (_output_filename : String) :
    CodeGenResult × CodeGenerator :=
  (.CODEGEN_SUCCESS, { g with output_open := true, output := [] })

/-- Write of one fprintf line to the sink. -/
def emit (g : CodeGenerator) (line : String) : CodeGenerator :=
  { g with output := g.output ++ [line] }

/-- Fixed prologue lines of `code_generator_emit_prologue` (codegen.c). -/
def prologue_lines : List String :=
  ["    .section .data",
   "    .section .text",
   "    .global _main",
   "_main:",
   "    push    rbp",
   "    mov     rbp, rsp"]

/-- Fixed epilogue lines of `code_generator_emit_epilogue` (codegen.c). -/
def epilogue_lines : List String :=
  ["    mov     rsp, rbp",
   "    pop     rbp",
   "    ret"]

/-- Emitter `code_generator_emit_prologue` of codegen.c. -/
def code_generator_emit_prologue (g : CodeGenerator) : CodeGenResult × CodeGenerator :=
  if !g.output_open then (.CODEGEN_ERROR_NULL_ANALYZER, g)
  else (.CODEGEN_SUCCESS, prologue_lines.foldl emit g)

/-- Emitter `code_generator_emit_epilogue` of codegen.c. -/
def code_generator_emit_epilogue (g : CodeGenerator) : CodeGenResult × CodeGenerator :=
  if !g.output_open then (.CODEGEN_ERROR_NULL_ANALYZER, g)
  else (.CODEGEN_SUCCESS, epilogue_lines.foldl emit g)

/-- Literal codegen `code_generator_generate_literal` of codegen.c: an
integer literal moves its immediate into the accumulator; everything else
is unsupported. -/
def code_generator_generate_literal (g : CodeGenerator) (node : ASTNode) :
    CodeGenResult × CodeGenerator :=
  if !g.output_open then (.CODEGEN_ERROR_NULL_ANALYZER, g)
  else
    match node with
    | .literal (some token) value =>
      if token.type = .TOKEN_INTEGER_LITERAL then
        (.CODEGEN_SUCCESS, emit g ("    mov     rax, " ++ toString value.intValue))
      else (.CODEGEN_ERROR_UNSUPPORTED_NODE, g)
    | .literal none _ => (.CODEGEN_ERROR_UNSUPPORTED_NODE, g)
    | _ => (.CODEGEN_ERROR_UNSUPPORTED_NODE, g)

/-- Expression dispatcher `code_generator_generate_expression` of
codegen.c: literals and binary expressions are generated; identifiers and
unary expressions are recognized but unsupported.  The dispatch target for
a BinaryExpression, `code_generator_generate_binary`, is inlined in the
`.binary` case (guards included) so that the mutual recursion of the C
code becomes structural recursion on the node; the standalone wrapper
below restates that case under its C name. -/
def code_generator_generate_expression (g : CodeGenerator) (node : ASTNode) :
    CodeGenResult × CodeGenerator :=
  match node with
  | .literal t v => code_generator_generate_literal g (.literal t v)
  | .binary _ left right operator =>
    if !g.output_open then (.CODEGEN_ERROR_NULL_ANALYZER, g)
    else
      let (r1, g1) := code_generator_generate_expression g left
      if r1 ≠ .CODEGEN_SUCCESS then (r1, g1)
      else
        let g2 := emit g1 "    push    rax"
        let (r2, g3) := code_generator_generate_expression g2 right
        if r2 ≠ .CODEGEN_SUCCESS then (r2, g3)
        else
          let g4 := emit g3 "    pop     rbx"
          if operator = "+" then (.CODEGEN_SUCCESS, emit g4 "    add     rax, rbx")
          else if operator = "-" then
            (.CODEGEN_SUCCESS, emit (emit g4 "    sub     rbx, rax") "    mov     rax, rbx")
          else if operator = "*" then (.CODEGEN_SUCCESS, emit g4 "    imul    rax, rbx")
          else (.CODEGEN_ERROR_UNSUPPORTED_NODE, g4)
  | .identifier _ _ => (.CODEGEN_ERROR_UNSUPPORTED_NODE, g)
  | .unary _ _ _ => (.CODEGEN_ERROR_UNSUPPORTED_NODE, g)
  | _ => (.CODEGEN_ERROR_UNSUPPORTED_NODE, g)

/-- Binary codegen `code_generator_generate_binary` of codegen.c: left into
the accumulator, push, right into the accumulator, pop the left value into
the secondary register, then combine for `+`, `-` or `*`; other operators
and node kinds are unsupported. -/
def code_generator_generate_binary (g : CodeGenerator) (node : ASTNode) :
    CodeGenResult × CodeGenerator :=
  if !g.output_open then (.CODEGEN_ERROR_NULL_ANALYZER, g)
  else
    match node with
    | .binary t left right operator =>
      code_generator_generate_expression g (.binary t left right operator)
    | _ => (.CODEGEN_ERROR_UNSUPPORTED_NODE, g)

/-- Declaration codegen `code_generator_generate_variable_declaration` of
codegen.c: bump the stack-offset counter by a fixed 8, emit the
stack-pointer adjustment, and when an initializer is present generate it
into the accumulator and store it at the newly reserved offset. -/
def code_generator_generate_variable_declaration (g : CodeGenerator)
    (node : ASTNode) : CodeGenResult × CodeGenerator :=
  if !g.output_open then (.CODEGEN_ERROR_NULL_ANALYZER, g)
  else
    match node with
    | .variable_declaration _ _ _ initializer _ =>
      let g1 := emit { g with stack_offset := g.stack_offset + 8 } "    sub     rsp, 8"
      match initializer with
      | none => (.CODEGEN_SUCCESS, g1)
      | some init =>
        let (r, g2) := code_generator_generate_expression g1 init
        if r ≠ .CODEGEN_SUCCESS then (r, g2)
        else
          (.CODEGEN_SUCCESS,
           emit g2 ("    mov     [rbp-" ++ toString g2.stack_offset ++ "], rax"))
    | _ => (.CODEGEN_ERROR_UNSUPPORTED_NODE, g)

/-- Child loop of `code_generator_generate_program` (codegen.c): dispatch
each top-level child, stopping at the first failure. -/
def code_generator_generate_children (g : CodeGenerator) :
    List ASTNode → CodeGenResult × CodeGenerator
  | [] => (.CODEGEN_SUCCESS, g)
  | child :: rest =>
    let (r, g') :=
      match child with
      | .variable_declaration _ _ _ _ _ =>
        code_generator_generate_variable_declaration g child
      | .binary _ _ _ _ => code_generator_generate_expression g child
      | .literal _ _ => code_generator_generate_expression g child
      | .identifier _ _ => code_generator_generate_expression g child
      | _ => (.CODEGEN_ERROR_UNSUPPORTED_NODE, g)
    if r ≠ .CODEGEN_SUCCESS then (r, g')
    else code_generator_generate_children g' rest

/-- Program codegen `code_generator_generate_program` of codegen.c:
prologue, then either the Program node's children in order or the node
itself as a single expression, then the epilogue; a failing child aborts
before the epilogue. -/
def code_generator_generate_program (g : CodeGenerator) (node : ASTNode) :
    CodeGenResult × CodeGenerator :=
  if !g.output_open then (.CODEGEN_ERROR_NULL_ANALYZER, g)
  else
    let (r0, g0) := code_generator_emit_prologue g
    if r0 ≠ .CODEGEN_SUCCESS then (r0, g0)
    else
      match node with
      | .program children =>
        let (r1, g1) := code_generator_generate_children g0 children
        if r1 ≠ .CODEGEN_SUCCESS then (r1, g1)
        else code_generator_emit_epilogue g1
      | _ =>
        let (r1, g1) := code_generator_generate_expression g0 node
        if r1 ≠ .CODEGEN_SUCCESS then (r1, g1)
        else code_generator_emit_epilogue g1

/-- Helper `code_generator_push_stack` of codegen.c: grows the counter and
emits the stack-pointer adjustment. -/
def code_generator_push_stack (g : CodeGenerator) (size : Int) :
    CodeGenResult × CodeGenerator :=
  if !g.output_open then (.CODEGEN_ERROR_NULL_ANALYZER, g)
  else
    (.CODEGEN_SUCCESS,
     emit { g with stack_offset := g.stack_offset + size }
       ("    sub     rsp, " ++ toString size))

/-- Helper `code_generator_pop_stack` of codegen.c: shrinks the counter and
emits the stack-pointer adjustment. -/
def code_generator_pop_stack (g : CodeGenerator) (size : Int) :
    CodeGenResult × CodeGenerator :=
  if !g.output_open then (.CODEGEN_ERROR_NULL_ANALYZER, g)
  else
    (.CODEGEN_SUCCESS,
     emit { g with stack_offset := g.stack_offset - size }
       ("    add     rsp, " ++ toString size))

/-! ## Fixtures shared by the theorems below -/

/-- Integer-literal token fixture, as the lexer builds it for a decimal
digit sequence. -/
def tok_int (v : Int) : Token :=
  token_create_with_literal .TOKEN_INTEGER_LITERAL (toString v) 1 1

/-- Operator/identifier token fixture at position 1:1. -/
def tok_of (t : TokenType) (s : String) : Token :=
  token_create t s 1 1

/-- Generator fixture: a fresh generator over an empty global table with
the output sink attached. -/
def gen_fixture : CodeGenerator :=
  (code_generator_set_output (code_generator_create (symbol_table_create 0)) "out.s").2

/-- Test for an add-mnemonic instruction line (the line begins with the
four-space indent and the mnemonic `add`), as the spec's "add-class
instruction" reads on the emitted text. -/
def isAddLine (line : String) : Bool :=
  line.toList.take 7 = "    add".toList

/-- Helper: every supported binary operator has a precedence of at least 2
in the table of parser.c. -/
theorem binop_prec_ge_two (t : TokenType) (h : parser_is_binary_operator t = true) :
    2 ≤ parser_get_precedence t := by
  revert h
  revert t
  decide

/-! ## C1 -/

/-- AST for the token stream of `1 == 2` as parser.c builds it. -/
def ast_one_eq_two : ASTNode :=
  (parser_parse (parser_create
    [tok_int 1, tok_of .TOKEN_EQUAL "==", tok_int 2])).1

/-- C1 counterexample: the BinaryExpression that parser.c builds for
`1 == 2` carries operator "==" and two integer-literal operands, yet
`ast_node_get_type` returns TYPE_INT for it, not TYPE_BOOL: the
same-numeric-type rule of semantic.c (lines 283-285) fires before the
comparison rule (lines 288-295). -/
theorem C1_counterexample :
    ast_one_eq_two =
      ASTNode.binary (some (tok_of .TOKEN_EQUAL "=="))
        (ASTNode.literal (some (tok_int 1)) (.int_value 1))
        (ASTNode.literal (some (tok_int 2)) (.int_value 2)) "==" ∧
    ast_node_get_type ast_one_eq_two semantic_analyzer_create = .TYPE_INT ∧
    ast_node_get_type ast_one_eq_two semantic_analyzer_create ≠ .TYPE_BOOL := by
  refine ⟨rfl, rfl, by decide⟩

/-- C1 amended: for a BinaryExpression with operator "==",
`ast_node_get_type` returns the operands' common type when both operands
have the same type and that type is Int or Float, and TYPE_BOOL for every
other pair of operand types. -/
theorem C1_amended (token : Option Token) (left right : ASTNode)
    (a : SemanticAnalyzer) :
    ast_node_get_type (ASTNode.binary token left right "==") a =
      (if ast_node_get_type left a = ast_node_get_type right a ∧
          (ast_node_get_type left a = .TYPE_INT ∨ ast_node_get_type left a = .TYPE_FLOAT)
       then ast_node_get_type left a
       else .TYPE_BOOL) := by
  conv_lhs => rw [ast_node_get_type]
  generalize ast_node_get_type left a = lt
  generalize ast_node_get_type right a = rt
  revert lt rt
  decide

/-! ## C3 -/

/-- C3 counterexample: TOKEN_ASSIGN has precedence 1 in the table, yet
`parser_is_binary_operator` rejects it, so parsing the stream of `a = b`
stops after the left identifier: the `=` token is still the current token
and no BinaryExpression is built. -/
theorem C3_counterexample :
    (parser_parse (parser_create
        [tok_of .TOKEN_IDENTIFIER "a", tok_of .TOKEN_ASSIGN "=",
         tok_of .TOKEN_IDENTIFIER "b"])).1 =
      ASTNode.identifier (some (tok_of .TOKEN_IDENTIFIER "a")) "a" ∧
    (parser_parse (parser_create
        [tok_of .TOKEN_IDENTIFIER "a", tok_of .TOKEN_ASSIGN "=",
         tok_of .TOKEN_IDENTIFIER "b"])).2.current_token =
      some (tok_of .TOKEN_ASSIGN "=") ∧
    parser_get_precedence .TOKEN_ASSIGN = 1 ∧
    parser_is_binary_operator .TOKEN_ASSIGN = false := by
  refine ⟨rfl, rfl, rfl, rfl⟩

/-- C3 amended: the precedence table does assign `=` precedence 1, but
`parser_is_binary_operator` does not recognize TOKEN_ASSIGN, so the
precedence-climbing loop never consumes an `=`: whenever the current token
is TOKEN_ASSIGN the loop returns its left operand with the state
untouched, and no BinaryExpression carrying "=" is created. -/
theorem C3_amended :
    parser_get_precedence .TOKEN_ASSIGN = 1 ∧
    parser_is_binary_operator .TOKEN_ASSIGN = false ∧
    ∀ (fuel : Nat) (precedence : Int) (left : ASTNode) (p : ParserState)
      (token : Token), token.type = .TOKEN_ASSIGN →
      p.current_token = some token →
      parser_precedence_loop fuel precedence left p = (left, p) := by
  refine ⟨rfl, rfl, fun fuel precedence left p token htype hcur => ?_⟩
  cases fuel with
  | zero => rfl
  | succ n =>
    rw [parser_precedence_loop, hcur]
    simp [htype, parser_is_binary_operator]

/-- C3 witness: instantiates the amended loop behavior on a concrete
state holding an `=` token. -/
theorem C3_witness :
    (tok_of .TOKEN_ASSIGN "=").type = .TOKEN_ASSIGN ∧
    ({ stream := [], current_token := some (tok_of .TOKEN_ASSIGN "="),
       had_error := false, last_error := none } : ParserState).current_token =
      some (tok_of .TOKEN_ASSIGN "=") ∧
    parser_precedence_loop 5 1 (ASTNode.identifier none "a")
      { stream := [], current_token := some (tok_of .TOKEN_ASSIGN "="),
        had_error := false, last_error := none } =
      (ASTNode.identifier none "a",
       { stream := [], current_token := some (tok_of .TOKEN_ASSIGN "="),
         had_error := false, last_error := none }) :=
  ⟨rfl, rfl,
   C3_amended.2.2 5 1 (ASTNode.identifier none "a")
     { stream := [], current_token := some (tok_of .TOKEN_ASSIGN "="),
       had_error := false, last_error := none }
     (tok_of .TOKEN_ASSIGN "=") rfl rfl⟩

/-! ## C9 -/

/-- AST for the token stream of `5 + 3` as parser.c builds it. -/
def ast_five_plus_three : ASTNode :=
  (parser_parse (parser_create
    [tok_int 5, tok_of .TOKEN_PLUS "+", tok_int 3])).1

/-- C9: generating code for `5 + 3` succeeds and emits exactly the fixed
prologue, then the stack-machine body — the accumulator loaded with 5 and
pushed, the accumulator loaded with 3, the saved value popped into the
secondary register, one `add` combining the two — then the fixed epilogue;
the whole output contains exactly one add-class instruction. -/
theorem C9_codegen_five_plus_three :
    (code_generator_generate_program gen_fixture ast_five_plus_three).1 =
      .CODEGEN_SUCCESS ∧
    (code_generator_generate_program gen_fixture ast_five_plus_three).2.output =
      prologue_lines ++
        ["    mov     rax, 5",
         "    push    rax",
         "    mov     rax, 3",
         "    pop     rbx",
         "    add     rax, rbx"] ++ epilogue_lines ∧
    ((code_generator_generate_program gen_fixture ast_five_plus_three).2.output.countP
        isAddLine) = 1 := by
  refine ⟨rfl, by decide, by decide⟩

/-! ## C8 -/

/-- C8 counterexample: `code_generator_pop_stack` decreases the
stack-offset counter — popping 8 bytes on a fresh generator drives the
counter from 0 to -8 — so not every operation of the generator leaves the
counter non-decreasing. -/
theorem C8_counterexample :
    gen_fixture.stack_offset = 0 ∧
    (code_generator_pop_stack gen_fixture 8).2.stack_offset = -8 ∧
    (code_generator_pop_stack gen_fixture 8).2.stack_offset <
      gen_fixture.stack_offset := by
  refine ⟨rfl, rfl, by decide⟩

/-! ## C10 -/

/-- C10: `lexer_peek_token` restores position, line, column and current
character to their values before the peek and returns the same token
`lexer_next_token` would, but the sticky error state is whatever the inner
`lexer_next_token` call left behind; concretely, peeking at the
unterminated string `"oops` leaves the error flag set with the Lexical
diagnostic retained even though the cursor still sits on the opening
quote at position 0. -/
theorem C10_peek_restores_cursor_not_error :
    (∀ lx : Lexer,
       (lexer_peek_token lx).2.position = lx.position ∧
       (lexer_peek_token lx).2.line = lx.line ∧
       (lexer_peek_token lx).2.column = lx.column ∧
       (lexer_peek_token lx).2.current_char = lx.current_char ∧
       (lexer_peek_token lx).1 = (lexer_next_token lx).1 ∧
       (lexer_peek_token lx).2.had_error = (lexer_next_token lx).2.had_error ∧
       (lexer_peek_token lx).2.last_error = (lexer_next_token lx).2.last_error) ∧
    ((lexer_create "\"oops").had_error = false ∧
     (lexer_peek_token (lexer_create "\"oops")).2.had_error = true ∧
     (lexer_peek_token (lexer_create "\"oops")).2.last_error =
       some (error_create .ERROR_LEXICAL "Unterminated string literal" 1 1 none) ∧
     (lexer_peek_token (lexer_create "\"oops")).2.position = 0 ∧
     (lexer_peek_token (lexer_create "\"oops")).2.current_char = '"') := by
  refine ⟨fun lx => ?_, by decide⟩
  rcases hn : lexer_next_token lx with ⟨t, l⟩
  simp [lexer_peek_token, hn]

/-! ## C6 -/

/-- C6: `enter_scope` pushes onto the scope stack a fresh SymbolTable whose
parent is the previous current table and whose scope level is exactly one
greater; `exit_scope` pops (destroys) the current table and makes the next
stack entry — the popped table's parent, whenever the stack is
parent-linked — the current scope, and undoes a preceding `enter_scope`
exactly; at depth 0 (only the global table on the stack) `exit_scope` is a
no-op, so the global table is never destroyed. -/
theorem C6_scope_stack_machine (a : SemanticAnalyzer) :
    (semantic_analyzer_current_scope (semantic_analyzer_enter_scope a) =
       SymbolTable.mk [] ((semantic_analyzer_current_scope a).scope_level + 1)
         (some (semantic_analyzer_current_scope a)) ∧
     (semantic_analyzer_enter_scope a).scope_stack =
       SymbolTable.mk [] ((semantic_analyzer_current_scope a).scope_level + 1)
         (some (semantic_analyzer_current_scope a)) :: a.scope_stack) ∧
    (∀ x rest, a.scope_stack = x :: rest →
       semantic_analyzer_exit_scope (semantic_analyzer_enter_scope a) = a) ∧
    (∀ t p rest, a.scope_stack = t :: p :: rest →
       (semantic_analyzer_exit_scope a).scope_stack = p :: rest ∧
       semantic_analyzer_current_scope (semantic_analyzer_exit_scope a) = p ∧
       (t.parent = some p →
         some (semantic_analyzer_current_scope (semantic_analyzer_exit_scope a)) =
           t.parent)) ∧
    (a.scope_stack.length ≤ 1 → semantic_analyzer_exit_scope a = a) := by
  refine ⟨⟨rfl, rfl⟩, ?_, ?_, ?_⟩
  · intro x rest h
    cases a with
    | mk stack he le =>
      simp only at h
      subst h
      rfl
  · intro t p rest h
    cases a with
    | mk stack he le =>
      simp only at h
      subst h
      exact ⟨rfl, rfl, fun hp => by simp [semantic_analyzer_exit_scope,
        semantic_analyzer_current_scope, hp]⟩
  · intro hlen
    cases a with
    | mk stack he le =>
      match stack, hlen with
      | [], _ => rfl
      | [g], _ => rfl

/-- C6 witness: the scope machine run create → enter → exit on concrete
state. -/
theorem C6_witness :
    (semantic_analyzer_enter_scope semantic_analyzer_create).scope_stack =
      [SymbolTable.mk [] 1 (some (symbol_table_create 0)), symbol_table_create 0] ∧
    semantic_analyzer_exit_scope (semantic_analyzer_enter_scope semantic_analyzer_create) =
      semantic_analyzer_create ∧
    (semantic_analyzer_exit_scope (semantic_analyzer_enter_scope semantic_analyzer_create)).scope_stack =
      [symbol_table_create 0] ∧
    semantic_analyzer_create.scope_stack.length ≤ 1 ∧
    semantic_analyzer_exit_scope semantic_analyzer_create = semantic_analyzer_create :=
  ⟨rfl,
   (C6_scope_stack_machine semantic_analyzer_create).2.1
     (symbol_table_create 0) [] rfl,
   ((C6_scope_stack_machine
       (semantic_analyzer_enter_scope semantic_analyzer_create)).2.2.1
     (SymbolTable.mk [] 1 (some (symbol_table_create 0)))
     (symbol_table_create 0) [] rfl).1,
   by decide,
   (C6_scope_stack_machine semantic_analyzer_create).2.2.2 (by decide)⟩

/-! ## C7 -/

/-- Scenario fixture: the `count` symbol registered at scope 0. -/
def sym_count : Symbol := symbol_create_variable "count" "int" true 1 1

/-- Scenario fixture: the `local` symbol registered at scope 1. -/
def sym_local : Symbol := symbol_create_variable "local" "int" true 2 1

/-- Scenario fixture: analyzer with `count` in the global scope. -/
def analyzer_scope0 : SemanticAnalyzer :=
  semantic_analyzer_add_symbol semantic_analyzer_create sym_count

/-- Scenario fixture: the same analyzer after entering scope 1 and adding
`local` there. -/
def analyzer_scope1 : SemanticAnalyzer :=
  semantic_analyzer_add_symbol (semantic_analyzer_enter_scope analyzer_scope0) sym_local

/-- Helper: a linear `find?` scan returns the first element satisfying the
name test when everything before it fails the test. -/
theorem find_first_match (name : String) (pre post : List Symbol) (s : Symbol)
    (hname : s.name = name) (hpre : ∀ x ∈ pre, x.name ≠ name) :
    List.find? (fun x => decide (x.name = name)) (pre ++ s :: post) = some s := by
  induction pre with
  | nil => simp [List.find?, hname]
  | cons x xs ih =>
    have hx : (decide (x.name = name)) = false := by
      simp [hpre x (by simp)]
    simp only [List.cons_append, List.find?, hx]
    exact ih fun y hy => hpre y (by simp [hy])

/-- C7: `symbol_table_lookup` scans the current table in insertion order
first and returns the first name match (first-match among same-name
duplicates), recursing into the parent chain only on a local miss; and in
the spec's scenario — `count` at scope 0, `local` added after entering
scope 1 — lookups inside scope 1 find both symbols, while after exiting,
`local` is no longer found and the scope level reads back 0. -/
theorem C7_lookup_order_and_scopes :
    (∀ (table : SymbolTable) (name : String) (pre post : List Symbol) (s : Symbol),
       table.symbols = pre ++ s :: post → s.name = name →
       (∀ x ∈ pre, x.name ≠ name) →
       symbol_table_lookup_local table name = some s) ∧
    (∀ (table : SymbolTable) (name : String) (s : Symbol),
       symbol_table_lookup_local table name = some s →
       symbol_table_lookup table name = some s) ∧
    (∀ (table : SymbolTable) (name : String),
       symbol_table_lookup_local table name = none →
       symbol_table_lookup table name = symbol_table_lookup_global table name) ∧
    (symbol_table_lookup (semantic_analyzer_current_scope analyzer_scope1) "local" =
       some sym_local ∧
     symbol_table_lookup (semantic_analyzer_current_scope analyzer_scope1) "count" =
       some sym_count ∧
     symbol_table_lookup
       (semantic_analyzer_current_scope (semantic_analyzer_exit_scope analyzer_scope1))
       "local" = none ∧
     (semantic_analyzer_current_scope (semantic_analyzer_exit_scope analyzer_scope1)).scope_level = 0 ∧
     (semantic_analyzer_current_scope analyzer_scope1).scope_level = 1) := by
  refine ⟨?_, ?_, ?_, by decide, by decide, by decide, by decide, by decide⟩
  · intro table name pre post s hsym hname hpre
    rw [symbol_table_lookup_local, hsym]
    exact find_first_match name pre post s hname hpre
  · intro table name s h
    cases table with
    | mk sy lv pa =>
      cases pa with
      | none => rw [symbol_table_lookup, h]
      | some parent => rw [symbol_table_lookup, h]
  · intro table name h
    cases table with
    | mk sy lv pa =>
      cases pa with
      | none => rw [symbol_table_lookup, h, symbol_table_lookup_global]
      | some parent => rw [symbol_table_lookup, h, symbol_table_lookup_global]

/-- C7 witness: the first-match scan and the local-hit rule instantiated
on the scope-1 table of the scenario. -/
theorem C7_witness :
    (semantic_analyzer_current_scope analyzer_scope1).symbols =
      [] ++ sym_local :: [] ∧
    sym_local.name = "local" ∧
    (∀ x ∈ ([] : List Symbol), x.name ≠ "local") ∧
    symbol_table_lookup_local (semantic_analyzer_current_scope analyzer_scope1)
      "local" = some sym_local ∧
    symbol_table_lookup (semantic_analyzer_current_scope analyzer_scope1)
      "local" = some sym_local :=
  ⟨rfl, rfl, by simp,
   C7_lookup_order_and_scopes.1 (semantic_analyzer_current_scope analyzer_scope1)
     "local" [] [] sym_local rfl rfl (by simp),
   C7_lookup_order_and_scopes.2.1 (semantic_analyzer_current_scope analyzer_scope1)
     "local" sym_local
     (C7_lookup_order_and_scopes.1 (semantic_analyzer_current_scope analyzer_scope1)
       "local" [] [] sym_local rfl rfl (by simp))⟩
/-- Helper: writing a line to the sink leaves the stack-offset counter
unchanged. -/
@[simp]
theorem emit_stack_offset (g : CodeGenerator) (line : String) :
    (emit g line).stack_offset = g.stack_offset := rfl

/-- Helper: folding line writes over the sink leaves the stack-offset
counter unchanged. -/
@[simp]
theorem foldl_emit_stack_offset (lines : List String) :
    ∀ g : CodeGenerator, (lines.foldl emit g).stack_offset = g.stack_offset := by
  induction lines with
  | nil => intro g; rfl
  | cons l rest ih => intro g; simp [List.foldl, ih]

/-- Helper: literal codegen leaves the stack-offset counter unchanged. -/
theorem generate_literal_stack_offset (g : CodeGenerator) (node : ASTNode) :
    (code_generator_generate_literal g node).2.stack_offset = g.stack_offset := by
  cases node with
  | literal t v =>
    cases t with
    | some token =>
      simp only [code_generator_generate_literal]
      split
      · rfl
      · split <;> rfl
    | none =>
      simp only [code_generator_generate_literal]
      split <;> rfl
  | program cs => simp only [code_generator_generate_literal]; split <;> rfl
  | identifier t n => simp only [code_generator_generate_literal]; split <;> rfl
  | binary t l r o => simp only [code_generator_generate_literal]; split <;> rfl
  | unary t op o => simp only [code_generator_generate_literal]; split <;> rfl
  | variable_declaration t tn nm init mu =>
    simp only [code_generator_generate_literal]; split <;> rfl
  | error t => simp only [code_generator_generate_literal]; split <;> rfl

/-- Helper: expression codegen never touches the stack-offset counter. -/
theorem generate_expression_stack_offset :
    ∀ (node : ASTNode) (g : CodeGenerator),
      (code_generator_generate_expression g node).2.stack_offset = g.stack_offset
  | .literal t v, g => generate_literal_stack_offset g (.literal t v)
  | .binary t l r o, g => by
    have ihl := generate_expression_stack_offset l g
    rw [code_generator_generate_expression]
    split
    · rfl
    · rcases hg1 : code_generator_generate_expression g l with ⟨r1, g1⟩
      rw [hg1] at ihl
      have ihr := generate_expression_stack_offset r (emit g1 "    push    rax")
      rcases hg3 : code_generator_generate_expression (emit g1 "    push    rax") r
        with ⟨r2, g3⟩
      rw [hg3] at ihr
      have h3 : g3.stack_offset = g.stack_offset := by
        rw [ihr, emit_stack_offset, ihl]
      simp only [hg1, hg3]
      split
      · exact ihl
      · split
        · exact h3
        · split
          · simpa using h3
          · split
            · simpa using h3
            · split
              · simpa using h3
              · simpa using h3
  | .identifier t n, g => rfl
  | .unary t op o, g => rfl
  | .program cs, g => rfl
  | .variable_declaration t tn nm init mu, g => rfl
  | .error t, g => rfl

/-- Helper: declaration codegen never decreases the stack-offset
counter. -/
theorem generate_variable_declaration_mono (g : CodeGenerator) (node : ASTNode) :
    g.stack_offset ≤
      (code_generator_generate_variable_declaration g node).2.stack_offset := by
  cases node with
  | program cs =>
    rw [code_generator_generate_variable_declaration]
    all_goals try (intro a b c d e h; exact ASTNode.noConfusion h)
    split <;> exact le_refl _
  | literal t v =>
    rw [code_generator_generate_variable_declaration]
    all_goals try (intro a b c d e h; exact ASTNode.noConfusion h)
    split <;> exact le_refl _
  | identifier t n =>
    rw [code_generator_generate_variable_declaration]
    all_goals try (intro a b c d e h; exact ASTNode.noConfusion h)
    split <;> exact le_refl _
  | binary t l r o =>
    rw [code_generator_generate_variable_declaration]
    all_goals try (intro a b c d e h; exact ASTNode.noConfusion h)
    split <;> exact le_refl _
  | unary t op o =>
    rw [code_generator_generate_variable_declaration]
    all_goals try (intro a b c d e h; exact ASTNode.noConfusion h)
    split <;> exact le_refl _
  | error t =>
    rw [code_generator_generate_variable_declaration]
    all_goals try (intro a b c d e h; exact ASTNode.noConfusion h)
    split <;> exact le_refl _
  | variable_declaration t tn nm init mu =>
    by_cases hopen : g.output_open = true
    case neg =>
      rw [code_generator_generate_variable_declaration, if_pos (by simp [hopen])]
    case pos =>
      rw [code_generator_generate_variable_declaration, if_neg (by simp [hopen])]
      cases init with
      | none => simp
      | some ini =>
        rcases hg2 : code_generator_generate_expression
            (emit { g with stack_offset := g.stack_offset + 8 } "    sub     rsp, 8") ini
          with ⟨r, g2⟩
        have h2 : g2.stack_offset = g.stack_offset + 8 := by
          have := generate_expression_stack_offset ini
            (emit { g with stack_offset := g.stack_offset + 8 } "    sub     rsp, 8")
          rw [hg2] at this
          simpa using this
        simp only [hg2]
        split
        · simp [h2]
        · simp [h2]

/-- Helper: declaration codegen on a VariableDeclaration node with the
sink open bumps the stack-offset counter by exactly 8. -/
theorem generate_variable_declaration_bumps_eight (g : CodeGenerator)
    (t : Option Token) (tn nm : String) (init : Option ASTNode) (mu : Bool)
    (hopen : g.output_open = true) :
    (code_generator_generate_variable_declaration g
        (.variable_declaration t tn nm init mu)).2.stack_offset =
      g.stack_offset + 8 := by
  rw [code_generator_generate_variable_declaration, if_neg (by simp [hopen])]
  cases init with
  | none => simp
  | some ini =>
    rcases hg2 : code_generator_generate_expression
        (emit { g with stack_offset := g.stack_offset + 8 } "    sub     rsp, 8") ini
      with ⟨r, g2⟩
    have h2 : g2.stack_offset = g.stack_offset + 8 := by
      have := generate_expression_stack_offset ini
        (emit { g with stack_offset := g.stack_offset + 8 } "    sub     rsp, 8")
      rw [hg2] at this
      simpa using this
    simp only [hg2]
    split
    · simp [h2]
    · simp [h2]

/-- Helper: the top-level child loop of program codegen never decreases the
stack-offset counter. -/
theorem generate_children_stack_offset :
    ∀ (children : List ASTNode) (g : CodeGenerator),
      g.stack_offset ≤ (code_generator_generate_children g children).2.stack_offset
  | [], g => le_refl _
  | child :: rest, g => by
    have ih := generate_children_stack_offset rest
    simp only [code_generator_generate_children]
    have hexpr : ∀ node : ASTNode,
        (∀ (r : CodeGenResult) (g' : CodeGenerator),
          code_generator_generate_expression g node = (r, g') →
          g.stack_offset ≤
            (if r ≠ .CODEGEN_SUCCESS then (r, g')
             else code_generator_generate_children g' rest).2.stack_offset) := by
      intro node r g' hp
      have hoff : g'.stack_offset = g.stack_offset := by
        have := generate_expression_stack_offset node g
        rw [hp] at this
        exact this
      by_cases hr : r = .CODEGEN_SUCCESS
      · rw [if_neg (by simp [hr])]
        exact hoff ▸ ih g'
      · rw [if_pos hr]
        exact le_of_eq hoff.symm
    cases child with
    | literal tt vv =>
      rcases hp : code_generator_generate_expression g (.literal tt vv) with ⟨r, g'⟩
      simp only [hp]
      exact hexpr _ r g' hp
    | binary tt ll rr oo =>
      rcases hp : code_generator_generate_expression g (.binary tt ll rr oo) with ⟨r, g'⟩
      simp only [hp]
      exact hexpr _ r g' hp
    | identifier tt nn =>
      rcases hp : code_generator_generate_expression g (.identifier tt nn) with ⟨r, g'⟩
      simp only [hp]
      exact hexpr _ r g' hp
    | variable_declaration tt tn nm init mu =>
      rcases hp : code_generator_generate_variable_declaration g
          (.variable_declaration tt tn nm init mu) with ⟨r, g'⟩
      have hoff : g.stack_offset ≤ g'.stack_offset := by
        have := generate_variable_declaration_mono g
          (.variable_declaration tt tn nm init mu)
        rw [hp] at this
        exact this
      simp only [hp]
      by_cases hr : r = .CODEGEN_SUCCESS
      · rw [if_neg (by simp [hr])]
        exact le_trans hoff (ih g')
      · rw [if_pos hr]
        exact hoff
    | program cs => simp
    | unary tt op oo => simp
    | error tt => simp

/-- Helper: the epilogue emitter leaves the stack-offset counter
unchanged. -/
theorem emit_epilogue_stack_offset (g : CodeGenerator) :
    (code_generator_emit_epilogue g).2.stack_offset = g.stack_offset := by
  rw [code_generator_emit_epilogue]
  split
  · rfl
  · simp

/-- Helper: the prologue emitter leaves the stack-offset counter
unchanged. -/
theorem emit_prologue_stack_offset (g : CodeGenerator) :
    (code_generator_emit_prologue g).2.stack_offset = g.stack_offset := by
  rw [code_generator_emit_prologue]
  split
  · rfl
  · simp

/-- Helper: program codegen never decreases the stack-offset counter. -/
theorem generate_program_stack_offset (g : CodeGenerator) (node : ASTNode) :
    g.stack_offset ≤ (code_generator_generate_program g node).2.stack_offset := by
  rw [code_generator_generate_program]
  split
  · exact le_refl _
  · rcases h0 : code_generator_emit_prologue g with ⟨r0, g0⟩
    have hg0 : g0.stack_offset = g.stack_offset := by
      have := emit_prologue_stack_offset g
      rw [h0] at this
      exact this
    simp only [h0]
    by_cases hr0 : r0 = .CODEGEN_SUCCESS
    · rw [if_neg (by simp [hr0])]
      split
      · rename_i children
        rcases h1 : code_generator_generate_children g0 children with ⟨r1, g1⟩
        have hle1 : g0.stack_offset ≤ g1.stack_offset := by
          have := generate_children_stack_offset children g0
          rw [h1] at this
          exact this
        simp only [h1]
        by_cases hr1 : r1 = .CODEGEN_SUCCESS
        · rw [if_neg (by simp [hr1])]
          exact le_trans (le_trans (le_of_eq hg0.symm) hle1)
            (le_of_eq (emit_epilogue_stack_offset g1).symm)
        · rw [if_pos hr1]
          exact le_trans (le_of_eq hg0.symm) hle1
      · rcases h1 : code_generator_generate_expression g0 node with ⟨r1, g1⟩
        have hle1 : g1.stack_offset = g0.stack_offset := by
          have := generate_expression_stack_offset node g0
          rw [h1] at this
          exact this
        simp only [h1]
        by_cases hr1 : r1 = .CODEGEN_SUCCESS
        · rw [if_neg (by simp [hr1])]
          exact le_of_eq (hg0.symm.trans
            (hle1.symm.trans (emit_epilogue_stack_offset g1).symm))
        · rw [if_pos hr1]
          exact le_of_eq (hg0.symm.trans hle1.symm)
    · rw [if_pos hr0]
      exact le_of_eq hg0.symm

/-- C8 amended: across the AST-walking generation operations the
stack-offset counter is monotone — expression codegen leaves it unchanged,
a VariableDeclaration bumps it by exactly 8 (sink open), program codegen
never decreases it — and `code_generator_push_stack` adds its size
argument; but `code_generator_pop_stack` subtracts its size argument, so
the counter is not monotone across every operation of the generator. -/
theorem C8_amended :
    (∀ (g : CodeGenerator) (node : ASTNode),
       (code_generator_generate_expression g node).2.stack_offset = g.stack_offset) ∧
    (∀ (g : CodeGenerator) (node : ASTNode),
       g.stack_offset ≤
         (code_generator_generate_variable_declaration g node).2.stack_offset) ∧
    (∀ (g : CodeGenerator) (t : Option Token) (tn nm : String)
       (init : Option ASTNode) (mu : Bool),
       g.output_open = true →
       (code_generator_generate_variable_declaration g
           (.variable_declaration t tn nm init mu)).2.stack_offset =
         g.stack_offset + 8) ∧
    (∀ (g : CodeGenerator) (node : ASTNode),
       g.stack_offset ≤ (code_generator_generate_program g node).2.stack_offset) ∧
    (∀ (g : CodeGenerator) (size : Int), g.output_open = true →
       (code_generator_push_stack g size).2.stack_offset = g.stack_offset + size ∧
       (code_generator_pop_stack g size).2.stack_offset = g.stack_offset - size) :=
  ⟨fun g node => generate_expression_stack_offset node g,
   fun g node => generate_variable_declaration_mono g node,
   fun g t tn nm init mu h => generate_variable_declaration_bumps_eight g t tn nm init mu h,
   fun g node => generate_program_stack_offset g node,
   fun g size h => by
     rw [code_generator_push_stack, code_generator_pop_stack]
     simp [h]⟩

/-- C8 witness: the exact-bump rule and push/pop arithmetic on the concrete
generator fixture. -/
theorem C8_witness :
    gen_fixture.output_open = true ∧
    (code_generator_generate_variable_declaration gen_fixture
        (.variable_declaration none "int" "x" none true)).2.stack_offset = 0 + 8 ∧
    (code_generator_push_stack gen_fixture 8).2.stack_offset = 0 + 8 ∧
    (code_generator_pop_stack gen_fixture 8).2.stack_offset = 0 - 8 :=
  ⟨rfl,
   C8_amended.2.2.1 gen_fixture none "int" "x" none true rfl,
   (C8_amended.2.2.2.2 gen_fixture 8 rfl).1,
   (C8_amended.2.2.2.2 gen_fixture 8 rfl).2⟩

/-! ## C2 -/

/-- Parser state mid-run: a remaining stream with a held current token and
no error, as arises while parsing a well-formed expression. -/
def run_state (stream : List Token) (cur : Token) : ParserState :=
  { stream := stream, current_token := some cur, had_error := false, last_error := none }

/-- Step lemma: with a token held, one fuel step of `parser_parse_expression`
enters precedence climbing at threshold 1. -/
theorem step_expression (n : Nat) (p : ParserState) (tok : Token)
    (hc : p.current_token = some tok) :
    parser_parse_expression (n + 1) p = parser_parse_expression_precedence n 1 p := by
  simp [parser_parse_expression, hc]

/-- Step lemma: a held integer-literal token parses as a primary into an
integer-literal node, consuming the token. -/
theorem step_primary_int (n : Nat) (p : ParserState) (tok : Token)
    (hc : p.current_token = some tok) (ht : tok.type = .TOKEN_INTEGER_LITERAL) :
    parser_parse_primary (n + 1) p =
      (ASTNode.literal (some tok) (.int_value tok.literal.intValue), parser_advance p) := by
  simp [parser_parse_primary, hc, ht, ast_node_create_literal_int]

/-- Step lemma: precedence climbing parses a primary and, when that primary
is not an Error node, continues with the operator loop. -/
theorem step_precedence_via_primary (n : Nat) (precedence : Int) (p : ParserState)
    (tok : Token) (left : ASTNode) (p1 : ParserState)
    (hc : p.current_token = some tok)
    (hprim : parser_parse_primary n p = (left, p1))
    (hok : left.isErrorNode = false) :
    parser_parse_expression_precedence (n + 1) precedence p =
      parser_precedence_loop n precedence left p1 := by
  simp [parser_parse_expression_precedence, hc, hprim, hok]

/-- Step lemma: the operator loop returns its left operand untouched when
the current token is not a binary operator. -/
theorem step_loop_exit (n : Nat) (precedence : Int) (left : ASTNode) (p : ParserState)
    (tok : Token) (hc : p.current_token = some tok)
    (hb : parser_is_binary_operator tok.type = false) :
    parser_precedence_loop (n + 1) precedence left p = (left, p) := by
  simp [parser_precedence_loop, hc, hb]

/-- Step lemma: the operator loop returns its left operand untouched when
the current operator binds below the threshold. -/
theorem step_loop_low (n : Nat) (precedence : Int) (left : ASTNode) (p : ParserState)
    (tok : Token) (hc : p.current_token = some tok)
    (hb : parser_is_binary_operator tok.type = true)
    (hlow : parser_get_precedence tok.type < precedence) :
    parser_precedence_loop (n + 1) precedence left p = (left, p) := by
  simp [parser_precedence_loop, hc, hb, hlow]

/-- Step lemma: the operator loop consumes an operator at or above the
threshold, parses the right side at threshold one higher, and folds a
BinaryExpression when the right side is not an Error node. -/
theorem step_loop_take_ok (n : Nat) (precedence : Int) (left : ASTNode) (p : ParserState)
    (tok : Token) (right : ASTNode) (p2 : ParserState)
    (hc : p.current_token = some tok)
    (hb : parser_is_binary_operator tok.type = true)
    (hge : ¬(parser_get_precedence tok.type < precedence))
    (hsub : parser_parse_expression_precedence n (parser_get_precedence tok.type + 1)
              (parser_advance p) = (right, p2))
    (hok : right.isErrorNode = false) :
    parser_precedence_loop (n + 1) precedence left p =
      parser_precedence_loop n precedence
        (ASTNode.binary (some tok) left right tok.lexeme) p2 := by
  simp [parser_precedence_loop, hc, hb, hge, hsub, hok, ast_node_create_binary]

/-- C2: on the token stream of `a OP1 b OP2 c` (integer-literal operands,
supported binary operators), the parser puts OP1 at the root with its
right child rooted at OP2 whenever OP2 binds strictly tighter than OP1,
and left-associates (OP2 at the root over the folded `a OP1 b`) when the
two precedences are equal. -/
theorem C2_precedence_and_associativity
    (ta t1 tb t2 tc : Token)
    (hta : ta.type = .TOKEN_INTEGER_LITERAL)
    (htb : tb.type = .TOKEN_INTEGER_LITERAL)
    (htc : tc.type = .TOKEN_INTEGER_LITERAL)
    (h1 : parser_is_binary_operator t1.type = true)
    (h2 : parser_is_binary_operator t2.type = true) :
    (parser_get_precedence t1.type < parser_get_precedence t2.type →
      (parser_parse (parser_create [ta, t1, tb, t2, tc])).1 =
        ASTNode.binary (some t1)
          (ASTNode.literal (some ta) (.int_value ta.literal.intValue))
          (ASTNode.binary (some t2)
            (ASTNode.literal (some tb) (.int_value tb.literal.intValue))
            (ASTNode.literal (some tc) (.int_value tc.literal.intValue))
            t2.lexeme)
          t1.lexeme) ∧
    (parser_get_precedence t1.type = parser_get_precedence t2.type →
      (parser_parse (parser_create [ta, t1, tb, t2, tc])).1 =
        ASTNode.binary (some t2)
          (ASTNode.binary (some t1)
            (ASTNode.literal (some ta) (.int_value ta.literal.intValue))
            (ASTNode.literal (some tb) (.int_value tb.literal.intValue))
            t1.lexeme)
          (ASTNode.literal (some tc) (.int_value tc.literal.intValue))
          t2.lexeme) := by
  have hge1 : ¬(parser_get_precedence t1.type < 1) := by
    have := binop_prec_ge_two t1.type h1
    omega
  have hge2 : ¬(parser_get_precedence t2.type < 1) := by
    have := binop_prec_ge_two t2.type h2
    omega
  have hEOFtype : (token_create .TOKEN_EOF "" 0 0).type = .TOKEN_EOF := rfl
  have e0 : parser_parse (parser_create [ta, t1, tb, t2, tc]) =
      parser_parse_expression 12 (run_state [t1, tb, t2, tc] ta) := by
    simp [parser_parse, parser_create, parser_advance, stream_next, run_state, hta]
  have e1 : parser_parse_expression 12 (run_state [t1, tb, t2, tc] ta) =
      parser_parse_expression_precedence 11 1 (run_state [t1, tb, t2, tc] ta) :=
    step_expression 11 _ ta rfl
  have e2 : parser_parse_primary 10 (run_state [t1, tb, t2, tc] ta) =
      (ASTNode.literal (some ta) (.int_value ta.literal.intValue),
       run_state [tb, t2, tc] t1) :=
    step_primary_int 9 _ ta rfl hta
  have e3 : parser_parse_expression_precedence 11 1 (run_state [t1, tb, t2, tc] ta) =
      parser_precedence_loop 10 1
        (ASTNode.literal (some ta) (.int_value ta.literal.intValue))
        (run_state [tb, t2, tc] t1) :=
    step_precedence_via_primary 10 1 _ ta _ _ rfl e2 rfl
  have e4 : parser_parse_primary 8 (run_state [t2, tc] tb) =
      (ASTNode.literal (some tb) (.int_value tb.literal.intValue),
       run_state [tc] t2) :=
    step_primary_int 7 _ tb rfl htb
  have e5 : parser_parse_expression_precedence 9 (parser_get_precedence t1.type + 1)
        (run_state [t2, tc] tb) =
      parser_precedence_loop 8 (parser_get_precedence t1.type + 1)
        (ASTNode.literal (some tb) (.int_value tb.literal.intValue))
        (run_state [tc] t2) :=
    step_precedence_via_primary 8 _ _ tb _ _ rfl e4 rfl
  constructor
  · intro hgt
    have hA : ¬(parser_get_precedence t2.type < parser_get_precedence t1.type + 1) := by
      omega
    have a6 : parser_parse_primary 6 (run_state [] tc) =
        (ASTNode.literal (some tc) (.int_value tc.literal.intValue),
         run_state [] (token_create .TOKEN_EOF "" 0 0)) :=
      step_primary_int 5 _ tc rfl htc
    have a7 : parser_parse_expression_precedence 7 (parser_get_precedence t2.type + 1)
          (run_state [] tc) =
        parser_precedence_loop 6 (parser_get_precedence t2.type + 1)
          (ASTNode.literal (some tc) (.int_value tc.literal.intValue))
          (run_state [] (token_create .TOKEN_EOF "" 0 0)) :=
      step_precedence_via_primary 6 _ _ tc _ _ rfl a6 rfl
    have a8 : parser_precedence_loop 6 (parser_get_precedence t2.type + 1)
          (ASTNode.literal (some tc) (.int_value tc.literal.intValue))
          (run_state [] (token_create .TOKEN_EOF "" 0 0)) =
        (ASTNode.literal (some tc) (.int_value tc.literal.intValue),
         run_state [] (token_create .TOKEN_EOF "" 0 0)) :=
      step_loop_exit 5 _ _ _ (token_create .TOKEN_EOF "" 0 0) rfl rfl
    have a9 : parser_precedence_loop 8 (parser_get_precedence t1.type + 1)
          (ASTNode.literal (some tb) (.int_value tb.literal.intValue))
          (run_state [tc] t2) =
        parser_precedence_loop 7 (parser_get_precedence t1.type + 1)
          (ASTNode.binary (some t2)
            (ASTNode.literal (some tb) (.int_value tb.literal.intValue))
            (ASTNode.literal (some tc) (.int_value tc.literal.intValue))
            t2.lexeme)
          (run_state [] (token_create .TOKEN_EOF "" 0 0)) :=
      step_loop_take_ok 7 _ _ _ t2 _ _ rfl h2 hA (a7.trans a8) rfl
    have a10 : parser_precedence_loop 7 (parser_get_precedence t1.type + 1)
          (ASTNode.binary (some t2)
            (ASTNode.literal (some tb) (.int_value tb.literal.intValue))
            (ASTNode.literal (some tc) (.int_value tc.literal.intValue))
            t2.lexeme)
          (run_state [] (token_create .TOKEN_EOF "" 0 0)) =
        (ASTNode.binary (some t2)
           (ASTNode.literal (some tb) (.int_value tb.literal.intValue))
           (ASTNode.literal (some tc) (.int_value tc.literal.intValue))
           t2.lexeme,
         run_state [] (token_create .TOKEN_EOF "" 0 0)) :=
      step_loop_exit 6 _ _ _ (token_create .TOKEN_EOF "" 0 0) rfl rfl
    have a11 : parser_precedence_loop 10 1
          (ASTNode.literal (some ta) (.int_value ta.literal.intValue))
          (run_state [tb, t2, tc] t1) =
        parser_precedence_loop 9 1
          (ASTNode.binary (some t1)
            (ASTNode.literal (some ta) (.int_value ta.literal.intValue))
            (ASTNode.binary (some t2)
              (ASTNode.literal (some tb) (.int_value tb.literal.intValue))
              (ASTNode.literal (some tc) (.int_value tc.literal.intValue))
              t2.lexeme)
            t1.lexeme)
          (run_state [] (token_create .TOKEN_EOF "" 0 0)) :=
      step_loop_take_ok 9 1 _ _ t1 _ _ rfl h1 hge1
        (e5.trans (a9.trans a10)) rfl
    have a12 := step_loop_exit 8 1
      (ASTNode.binary (some t1)
        (ASTNode.literal (some ta) (.int_value ta.literal.intValue))
        (ASTNode.binary (some t2)
          (ASTNode.literal (some tb) (.int_value tb.literal.intValue))
          (ASTNode.literal (some tc) (.int_value tc.literal.intValue))
          t2.lexeme)
        t1.lexeme)
      (run_state [] (token_create .TOKEN_EOF "" 0 0))
      (token_create .TOKEN_EOF "" 0 0) rfl rfl
    rw [e0, e1, e3, a11, a12]
  · intro heq
    have hB : parser_get_precedence t2.type < parser_get_precedence t1.type + 1 := by
      omega
    have b6 : parser_precedence_loop 8 (parser_get_precedence t1.type + 1)
          (ASTNode.literal (some tb) (.int_value tb.literal.intValue))
          (run_state [tc] t2) =
        (ASTNode.literal (some tb) (.int_value tb.literal.intValue),
         run_state [tc] t2) :=
      step_loop_low 7 _ _ _ t2 rfl h2 hB
    have b7 : parser_precedence_loop 10 1
          (ASTNode.literal (some ta) (.int_value ta.literal.intValue))
          (run_state [tb, t2, tc] t1) =
        parser_precedence_loop 9 1
          (ASTNode.binary (some t1)
            (ASTNode.literal (some ta) (.int_value ta.literal.intValue))
            (ASTNode.literal (some tb) (.int_value tb.literal.intValue))
            t1.lexeme)
          (run_state [tc] t2) :=
      step_loop_take_ok 9 1 _ _ t1 _ _ rfl h1 hge1 (e5.trans b6) rfl
    have b8 : parser_parse_primary 7 (run_state [] tc) =
        (ASTNode.literal (some tc) (.int_value tc.literal.intValue),
         run_state [] (token_create .TOKEN_EOF "" 0 0)) :=
      step_primary_int 6 _ tc rfl htc
    have b9 : parser_parse_expression_precedence 8 (parser_get_precedence t2.type + 1)
          (run_state [] tc) =
        parser_precedence_loop 7 (parser_get_precedence t2.type + 1)
          (ASTNode.literal (some tc) (.int_value tc.literal.intValue))
          (run_state [] (token_create .TOKEN_EOF "" 0 0)) :=
      step_precedence_via_primary 7 _ _ tc _ _ rfl b8 rfl
    have b10 : parser_precedence_loop 7 (parser_get_precedence t2.type + 1)
          (ASTNode.literal (some tc) (.int_value tc.literal.intValue))
          (run_state [] (token_create .TOKEN_EOF "" 0 0)) =
        (ASTNode.literal (some tc) (.int_value tc.literal.intValue),
         run_state [] (token_create .TOKEN_EOF "" 0 0)) :=
      step_loop_exit 6 _ _ _ (token_create .TOKEN_EOF "" 0 0) rfl rfl
    have b11 : parser_precedence_loop 9 1
          (ASTNode.binary (some t1)
            (ASTNode.literal (some ta) (.int_value ta.literal.intValue))
            (ASTNode.literal (some tb) (.int_value tb.literal.intValue))
            t1.lexeme)
          (run_state [tc] t2) =
        parser_precedence_loop 8 1
          (ASTNode.binary (some t2)
            (ASTNode.binary (some t1)
              (ASTNode.literal (some ta) (.int_value ta.literal.intValue))
              (ASTNode.literal (some tb) (.int_value tb.literal.intValue))
              t1.lexeme)
            (ASTNode.literal (some tc) (.int_value tc.literal.intValue))
            t2.lexeme)
          (run_state [] (token_create .TOKEN_EOF "" 0 0)) :=
      step_loop_take_ok 8 1 _ _ t2 _ _ rfl h2 hge2 (b9.trans b10) rfl
    have b12 := step_loop_exit 7 1
      (ASTNode.binary (some t2)
        (ASTNode.binary (some t1)
          (ASTNode.literal (some ta) (.int_value ta.literal.intValue))
          (ASTNode.literal (some tb) (.int_value tb.literal.intValue))
          t1.lexeme)
        (ASTNode.literal (some tc) (.int_value tc.literal.intValue))
        t2.lexeme)
      (run_state [] (token_create .TOKEN_EOF "" 0 0))
      (token_create .TOKEN_EOF "" 0 0) rfl rfl
    rw [e0, e1, e3, b7, b11, b12]

/-- C2 witness: `1 + 2 * 3` parses with `+` at the root and `*` on the
right; `1 - 2 - 3` parses left-associated. -/
theorem C2_witness :
    ((tok_int 1).type = .TOKEN_INTEGER_LITERAL ∧
     parser_is_binary_operator (tok_of .TOKEN_PLUS "+").type = true ∧
     parser_is_binary_operator (tok_of .TOKEN_MULTIPLY "*").type = true ∧
     parser_get_precedence (tok_of .TOKEN_PLUS "+").type <
       parser_get_precedence (tok_of .TOKEN_MULTIPLY "*").type ∧
     (parser_parse (parser_create
         [tok_int 1, tok_of .TOKEN_PLUS "+", tok_int 2,
          tok_of .TOKEN_MULTIPLY "*", tok_int 3])).1 =
       ASTNode.binary (some (tok_of .TOKEN_PLUS "+"))
         (ASTNode.literal (some (tok_int 1)) (.int_value 1))
         (ASTNode.binary (some (tok_of .TOKEN_MULTIPLY "*"))
           (ASTNode.literal (some (tok_int 2)) (.int_value 2))
           (ASTNode.literal (some (tok_int 3)) (.int_value 3)) "*")
         "+") ∧
    (parser_get_precedence (tok_of .TOKEN_MINUS "-").type =
       parser_get_precedence (tok_of .TOKEN_MINUS "-").type ∧
     (parser_parse (parser_create
         [tok_int 1, tok_of .TOKEN_MINUS "-", tok_int 2,
          tok_of .TOKEN_MINUS "-", tok_int 3])).1 =
       ASTNode.binary (some (tok_of .TOKEN_MINUS "-"))
         (ASTNode.binary (some (tok_of .TOKEN_MINUS "-"))
           (ASTNode.literal (some (tok_int 1)) (.int_value 1))
           (ASTNode.literal (some (tok_int 2)) (.int_value 2)) "-")
         (ASTNode.literal (some (tok_int 3)) (.int_value 3)) "-") :=
  ⟨⟨rfl, rfl, rfl, by decide,
    (C2_precedence_and_associativity (tok_int 1) (tok_of .TOKEN_PLUS "+")
      (tok_int 2) (tok_of .TOKEN_MULTIPLY "*") (tok_int 3)
      rfl rfl rfl rfl rfl).1 (by decide)⟩,
   ⟨rfl,
    (C2_precedence_and_associativity (tok_int 1) (tok_of .TOKEN_MINUS "-")
      (tok_int 2) (tok_of .TOKEN_MINUS "-") (tok_int 3)
      rfl rfl rfl rfl rfl).2 rfl⟩⟩

/-! ## C4 -/

/-- Helper: the cursor step preserves the source text. -/
@[simp]
theorem advance_source (lx : Lexer) : (advance lx).source = lx.source := by
  rw [advance]
  split <;> rfl

/-- Helper: the cursor step moves the position forward by one. -/
@[simp]
theorem advance_position (lx : Lexer) : (advance lx).position = lx.position + 1 := by
  rw [advance]
  split <;> rfl

/-- Helper: the cursor step refreshes the cached character from the new
position. -/
@[simp]
theorem advance_current_char (lx : Lexer) :
    (advance lx).current_char = charAt lx.source (lx.position + 1) := by
  rw [advance]
  split <;> rfl

/-- Helper: the cursor step never touches the sticky error flag. -/
@[simp]
theorem advance_had_error (lx : Lexer) : (advance lx).had_error = lx.had_error := by
  rw [advance]
  split <;> rfl

/-- Helper: the cursor step never touches the retained diagnostic. -/
@[simp]
theorem advance_last_error (lx : Lexer) : (advance lx).last_error = lx.last_error := by
  rw [advance]
  split <;> rfl

/-- Cursor invariant: the cached current character equals the character
under the position (with '\x00' standing for the terminator).
`lexer_create` establishes it and `advance` preserves it. -/
def Lexer.Wf (lx : Lexer) : Prop :=
  lx.current_char = charAt lx.source lx.position

/-- Helper: the cursor step preserves the invariant. -/
theorem advance_wf (lx : Lexer) : (advance lx).Wf := by
  rw [Lexer.Wf, advance_current_char, advance_source, advance_position]

/-- Specification-side scan of a string-literal body, mirroring the words
of the claim: walking the characters after the opening quote, translating
escapes, until a closing quote (`true`) or the end of input (`false`); the
second component is the content consumed. -/
def scanString : List Char → Bool × List Char
  | [] => (false, [])
  | c :: rest =>
    if c = '"' then (true, [])
    else if c = '\\' then
      match rest with
      | [] => (false, [])
      | d :: rest2 => ((scanString rest2).1, escapeChar d :: (scanString rest2).2)
    else ((scanString rest).1, c :: (scanString rest).2)

/-- Helper: the scan stops at a closing quote. -/
theorem scanString_quote (rest : List Char) : scanString ('"' :: rest) = (true, []) := by
  rw [scanString.eq_def]
  simp

/-- Helper: a backslash at the very end of input ends the scan
unterminated with nothing consumed. -/
theorem scanString_backslash_nil : scanString ['\\'] = (false, []) := by decide

/-- Helper: a backslash consumes the following character as an escape. -/
theorem scanString_backslash (d : Char) (rest2 : List Char) :
    scanString ('\\' :: d :: rest2) =
      ((scanString rest2).1, escapeChar d :: (scanString rest2).2) := by
  rw [scanString.eq_def]
  simp

/-- Helper: an ordinary character is consumed as content. -/
theorem scanString_other (c : Char) (rest : List Char)
    (h1 : ¬(c = '"')) (h2 : ¬(c = '\\')) :
    scanString (c :: rest) = ((scanString rest).1, c :: (scanString rest).2) := by
  rw [scanString.eq_def]
  simp [h1, h2]

/-- Helper: reading under a position whose remaining suffix is known. -/
theorem charAt_of_drop_cons {src : List Char} {pos : Nat} {c : Char} {rest : List Char}
    (h : src.drop pos = c :: rest) : charAt src pos = c := by
  have h1 : src[pos]? = some c := by
    rw [← List.head?_drop, h]
    rfl
  simp [charAt, List.getD, h1]

/-- Helper: reading at or past the end of the source yields the
terminator. -/
theorem charAt_of_drop_nil {src : List Char} {pos : Nat}
    (h : src.drop pos = []) : charAt src pos = '\x00' := by
  have hle : src.length ≤ pos := List.drop_eq_nil_iff.mp h
  simp [charAt, List.getD, List.getElem?_eq_none hle]

/-- Helper: dropping one more character from a known suffix. -/
theorem drop_succ_of_drop_cons {src : List Char} {pos : Nat} {c : Char} {rest : List Char}
    (h : src.drop pos = c :: rest) : src.drop (pos + 1) = rest := by
  rw [← List.tail_drop, h]
  rfl

/-- Helper: the head of a known suffix is a character of the source. -/
theorem mem_of_drop_cons {src : List Char} {pos : Nat} {c : Char} {rest : List Char}
    (h : src.drop pos = c :: rest) : c ∈ src := by
  have : c ∈ src.drop pos := by
    rw [h]
    simp
  exact List.mem_of_mem_drop this

/-- Bridging lemma: with enough fuel, the body loop of `read_string`
computes exactly the specification scan of the remaining characters — it
appends the scanned content to the buffer, never touches the source or the
sticky error state, and stops on a closing quote exactly when the scan
reports one (on the terminator otherwise). -/
theorem read_string_loop_spec :
    ∀ (fuel : Nat) (l : List Char) (lx : Lexer) (buf : List Char),
      lx.Wf →
      '\x00' ∉ lx.source →
      lx.source.drop lx.position = l →
      l.length < fuel →
      (read_string_loop fuel lx buf).2 = buf ++ (scanString l).2 ∧
      (read_string_loop fuel lx buf).1.source = lx.source ∧
      (read_string_loop fuel lx buf).1.had_error = lx.had_error ∧
      (read_string_loop fuel lx buf).1.last_error = lx.last_error ∧
      (read_string_loop fuel lx buf).1.current_char =
        (if (scanString l).1 then '"' else '\x00') := by
  intro fuel
  induction fuel with
  | zero => intro l lx buf _ _ _ hlen; omega
  | succ n ih =>
    intro l lx buf hwf hnul hdrop hlen
    cases l with
    | nil =>
      have hc0 : lx.current_char = '\x00' := by
        rw [hwf]
        exact charAt_of_drop_nil hdrop
      simp [read_string_loop, hc0, scanString]
    | cons c rest =>
      have hcc : lx.current_char = c := by
        rw [hwf]
        exact charAt_of_drop_cons hdrop
      have hcne : ¬(c = '\x00') := fun h => hnul (h ▸ mem_of_drop_cons hdrop)
      by_cases hq : c = '"'
      · subst hq
        simp [read_string_loop, hcc, scanString_quote]
      · by_cases hbs : c = '\\'
        · subst hbs
          have hdrop1 : lx.source.drop (lx.position + 1) = rest :=
            drop_succ_of_drop_cons hdrop
          cases rest with
          | nil =>
            have hc1 : charAt lx.source (lx.position + 1) = '\x00' :=
              charAt_of_drop_nil hdrop1
            have hrec := ih [] (advance (advance lx)) buf (advance_wf _)
              (by simpa using hnul)
              (by
                simp only [advance_source, advance_position]
                rw [← List.tail_drop, hdrop1]
                rfl)
              (by simp at hlen ⊢; omega)
            simp [read_string_loop, hcc, hc1, hrec.1, hrec.2.1, hrec.2.2.1,
              hrec.2.2.2.1, hrec.2.2.2.2, scanString_backslash_nil, scanString]
          | cons d rest2 =>
            have hd : charAt lx.source (lx.position + 1) = d :=
              charAt_of_drop_cons hdrop1
            have hdne : ¬(d = '\x00') := fun h =>
              hnul (h ▸ mem_of_drop_cons hdrop1)
            have hrec := ih rest2 (advance (advance lx)) (buf ++ [escapeChar d])
              (advance_wf _)
              (by simpa using hnul)
              (by
                simp only [advance_source, advance_position]
                rw [← List.tail_drop, hdrop1]
                rfl)
              (by simp at hlen ⊢; omega)
            simp [read_string_loop, hcc, hd, hdne, hrec.1, hrec.2.1, hrec.2.2.1,
              hrec.2.2.2.1, hrec.2.2.2.2, scanString_backslash]
        · have hdrop1 : lx.source.drop (lx.position + 1) = rest :=
            drop_succ_of_drop_cons hdrop
          have hrec := ih rest (advance lx) (buf ++ [c]) (advance_wf _)
            (by simpa using hnul)
            (by
              simp only [advance_source, advance_position]
              exact hdrop1)
            (by simp at hlen ⊢; omega)
          simp [read_string_loop, hcc, hcne, hq, hbs, hrec.1, hrec.2.1, hrec.2.2.1,
            hrec.2.2.2.1, hrec.2.2.2.2, scanString_other c rest hq hbs]

/-- C4: reading a string literal that reaches the end of input before a
closing quote still returns a string-literal token (the function is total
and its token kind is TOKEN_STRING_LITERAL — never a null result) whose
lexeme wraps the consumed, escape-translated content in double quotes and
whose string payload is that content, and it leaves the lexer's sticky
error flag set with the retrievable Lexical diagnostic positioned at the
opening quote. -/
theorem C4_unterminated_string (lx : Lexer)
    (hwf : lx.Wf)
    (hnul : '\x00' ∉ lx.source)
    (hq : lx.current_char = '"')
    (hun : (scanString (lx.source.drop (lx.position + 1))).1 = false) :
    (read_string lx).1.type = .TOKEN_STRING_LITERAL ∧
    (read_string lx).1.lexeme =
      "\"" ++ String.mk (scanString (lx.source.drop (lx.position + 1))).2 ++ "\"" ∧
    (read_string lx).1.literal =
      .string_value (String.mk (scanString (lx.source.drop (lx.position + 1))).2) ∧
    (read_string lx).2.had_error = true ∧
    (read_string lx).2.last_error =
      some (error_create .ERROR_LEXICAL "Unterminated string literal"
        lx.line lx.column none) := by
  rcases hl : read_string_loop ((advance lx).source.length + 2) (advance lx) []
    with ⟨lx1, buf⟩
  have hspec := read_string_loop_spec ((advance lx).source.length + 2)
    (lx.source.drop (lx.position + 1)) (advance lx) [] (advance_wf _)
    (by simpa using hnul)
    (by simp)
    (by
      simp only [advance_source]
      have := List.length_drop (lx.position + 1) lx.source
      omega)
  rw [hl] at hspec
  have hbuf : buf = (scanString (lx.source.drop (lx.position + 1))).2 := by
    simpa using hspec.1
  have hcur : lx1.current_char = '\x00' := by
    have := hspec.2.2.2.2
    rw [hun] at this
    simpa using this
  simp only [read_string, hl]
  rw [hcur]
  refine ⟨?_, ?_, ?_, ?_, ?_⟩
  · simp only [token_create_with_literal, token_create]
    split <;> rfl
  · simp only [token_create_with_literal, token_create]
    split <;> simp [hbuf]
  · simp [hbuf]
  · simp
  · simp

/-- C4 witness: the unterminated literal `"abc` (no closing quote). -/
theorem C4_witness :
    (lexer_create "\"abc").Wf ∧
    '\x00' ∉ (lexer_create "\"abc").source ∧
    (lexer_create "\"abc").current_char = '"' ∧
    (scanString ((lexer_create "\"abc").source.drop
      ((lexer_create "\"abc").position + 1))).1 = false ∧
    ((read_string (lexer_create "\"abc")).1.type = .TOKEN_STRING_LITERAL ∧
     (read_string (lexer_create "\"abc")).1.lexeme =
       "\"" ++ String.mk (scanString ((lexer_create "\"abc").source.drop
         ((lexer_create "\"abc").position + 1))).2 ++ "\"" ∧
     (read_string (lexer_create "\"abc")).1.literal =
       .string_value (String.mk (scanString ((lexer_create "\"abc").source.drop
         ((lexer_create "\"abc").position + 1))).2) ∧
     (read_string (lexer_create "\"abc")).2.had_error = true ∧
     (read_string (lexer_create "\"abc")).2.last_error =
       some (error_create .ERROR_LEXICAL "Unterminated string literal"
         (lexer_create "\"abc").line (lexer_create "\"abc").column none)) :=
  ⟨rfl, by decide, rfl, by decide,
   C4_unterminated_string (lexer_create "\"abc") rfl (by decide) rfl (by decide)⟩

/-! ## C5 -/

/-- Helper: consuming a token always leaves a held current token (the
stream hands out TOKEN_EOF forever once exhausted). -/
theorem parser_advance_isSome (p : ParserState) :
    (parser_advance p).current_token.isSome = true := by
  rw [parser_advance]
  cases p.stream <;> rfl

/-- Invariant of the expression parsers: starting from a state that holds
a current token, each function leaves a held current token, and whenever
it returns an Error node the sticky error flag is set with a diagnostic
retained (the operator loop assuming its left operand is not an Error
node, as at both of its call sites). -/
theorem parser_error_sets_flag :
    ∀ fuel : Nat,
      (∀ p : ParserState, p.current_token.isSome = true →
        (parser_parse_primary fuel p).2.current_token.isSome = true ∧
        ((parser_parse_primary fuel p).1.isErrorNode = true →
          (parser_parse_primary fuel p).2.had_error = true ∧
          (parser_parse_primary fuel p).2.last_error.isSome = true)) ∧
      (∀ (precedence : Int) (p : ParserState), p.current_token.isSome = true →
        (parser_parse_expression_precedence fuel precedence p).2.current_token.isSome = true ∧
        ((parser_parse_expression_precedence fuel precedence p).1.isErrorNode = true →
          (parser_parse_expression_precedence fuel precedence p).2.had_error = true ∧
          (parser_parse_expression_precedence fuel precedence p).2.last_error.isSome = true)) ∧
      (∀ (precedence : Int) (left : ASTNode) (p : ParserState),
        p.current_token.isSome = true → left.isErrorNode = false →
        (parser_precedence_loop fuel precedence left p).2.current_token.isSome = true ∧
        ((parser_precedence_loop fuel precedence left p).1.isErrorNode = true →
          (parser_precedence_loop fuel precedence left p).2.had_error = true ∧
          (parser_precedence_loop fuel precedence left p).2.last_error.isSome = true)) ∧
      (∀ p : ParserState, p.current_token.isSome = true →
        (parser_parse_expression fuel p).2.current_token.isSome = true ∧
        ((parser_parse_expression fuel p).1.isErrorNode = true →
          (parser_parse_expression fuel p).2.had_error = true ∧
          (parser_parse_expression fuel p).2.last_error.isSome = true)) := by
  intro fuel
  induction fuel with
  | zero =>
    refine ⟨fun p hp => ⟨hp, fun _ => ⟨rfl, rfl⟩⟩,
            fun prec p hp => ⟨hp, fun _ => ⟨rfl, rfl⟩⟩,
            fun prec left p hp hl => ⟨hp, fun herr => ?_⟩,
            fun p hp => ⟨hp, fun _ => ⟨rfl, rfl⟩⟩⟩
    rw [parser_precedence_loop] at herr
    rw [hl] at herr
    cases herr
  | succ n ih =>
    obtain ⟨ihPrim, ihPrec, ihLoop, ihExpr⟩ := ih
    have stepPrim : ∀ p : ParserState, p.current_token.isSome = true →
        (parser_parse_primary (n+1) p).2.current_token.isSome = true ∧
        ((parser_parse_primary (n+1) p).1.isErrorNode = true →
          (parser_parse_primary (n+1) p).2.had_error = true ∧
          (parser_parse_primary (n+1) p).2.last_error.isSome = true) := by
      intro p hp
      rcases hc : p.current_token with _ | tok
      · rw [hc] at hp
        cases hp
      · simp only [parser_parse_primary, hc]
        by_cases h1 : tok.type = .TOKEN_LEFT_PAREN

        · rw [if_pos h1]
          rcases he : parser_parse_expression n (parser_advance p) with ⟨expr, p2⟩
          have hsub := ihExpr (parser_advance p) (parser_advance_isSome p)
          rw [he] at hsub
          simp only [he]
          by_cases herr : expr.isErrorNode = true
          · rw [if_pos herr]
            exact ⟨hsub.1, fun _ => hsub.2 herr⟩
          · rw [if_neg herr]
            rcases hc2 : p2.current_token with _ | cp
            · rw [hc2] at hsub
              cases hsub.1
            · simp only [hc2]
              by_cases hrp : cp.type = .TOKEN_RIGHT_PAREN
              · rw [if_pos hrp]
                exact ⟨parser_advance_isSome p2, fun habs => absurd habs herr⟩
              · rw [if_neg hrp]
                exact ⟨by simp [hc2], fun _ => ⟨rfl, rfl⟩⟩
        · rw [if_neg h1]
          by_cases h2 : tok.type = .TOKEN_INTEGER_LITERAL
          · simp [h2, parser_advance_isSome, ast_node_create_literal_int,
              ASTNode.isErrorNode]
          · rw [if_neg h2]
            by_cases h3 : tok.type = .TOKEN_FLOAT_LITERAL
            · simp [h3, parser_advance_isSome, ASTNode.isErrorNode]
            · rw [if_neg h3]
              by_cases h4 : tok.type = .TOKEN_STRING_LITERAL
              · simp [h4, parser_advance_isSome, ASTNode.isErrorNode]
              · rw [if_neg h4]
                by_cases h5 : tok.type = .TOKEN_IDENTIFIER
                · simp [h5, parser_advance_isSome, ASTNode.isErrorNode]
                · rw [if_neg h5]
                  by_cases h6 : tok.type = .TOKEN_TRUE
                  · simp [h6, parser_advance_isSome, ast_node_create_literal_int,
                      ASTNode.isErrorNode]
                  · rw [if_neg h6]
                    by_cases h7 : tok.type = .TOKEN_FALSE
                    · simp [h7, parser_advance_isSome, ast_node_create_literal_int,
                        ASTNode.isErrorNode]
                    · rw [if_neg h7]
                      exact ⟨rfl, fun _ => ⟨rfl, rfl⟩⟩
    have stepLoop : ∀ (precedence : Int) (left : ASTNode) (p : ParserState),
        p.current_token.isSome = true → left.isErrorNode = false →
        (parser_precedence_loop (n+1) precedence left p).2.current_token.isSome = true ∧
        ((parser_precedence_loop (n+1) precedence left p).1.isErrorNode = true →
          (parser_precedence_loop (n+1) precedence left p).2.had_error = true ∧
          (parser_precedence_loop (n+1) precedence left p).2.last_error.isSome = true) := by
      intro precedence left p hp hl
      rcases hc : p.current_token with _ | tok
      · rw [hc] at hp
        cases hp
      · simp only [parser_precedence_loop, hc]
        by_cases hb : parser_is_binary_operator tok.type = true
        · rw [if_pos hb]
          by_cases hlow : parser_get_precedence tok.type < precedence
          · rw [if_pos hlow]
            refine ⟨by simp [hc], fun habs => ?_⟩
            rw [hl] at habs
            cases habs
          · rw [if_neg hlow]
            rcases hr : parser_parse_expression_precedence n
                (parser_get_precedence tok.type + 1) (parser_advance p) with ⟨right, p2⟩
            have hsub := ihPrec (parser_get_precedence tok.type + 1)
              (parser_advance p) (parser_advance_isSome p)
            rw [hr] at hsub
            simp only [hr]
            by_cases herr : right.isErrorNode = true
            · rw [if_pos herr]
              exact ⟨hsub.1, fun _ => hsub.2 herr⟩
            · rw [if_neg herr]
              exact ihLoop precedence _ p2 hsub.1 rfl
        · rw [if_neg hb]
          refine ⟨by simp [hc], fun habs => ?_⟩
          rw [hl] at habs
          cases habs
    have stepPrec : ∀ (precedence : Int) (p : ParserState),
        p.current_token.isSome = true →
        (parser_parse_expression_precedence (n+1) precedence p).2.current_token.isSome = true ∧
        ((parser_parse_expression_precedence (n+1) precedence p).1.isErrorNode = true →
          (parser_parse_expression_precedence (n+1) precedence p).2.had_error = true ∧
          (parser_parse_expression_precedence (n+1) precedence p).2.last_error.isSome = true) := by
      intro precedence p hp
      rcases hc : p.current_token with _ | tok
      · rw [hc] at hp
        cases hp
      · simp only [parser_parse_expression_precedence, hc]
        rcases hprim : parser_parse_primary n p with ⟨left, p1⟩
        have hsub := ihPrim p hp
        rw [hprim] at hsub
        simp only [hprim]
        by_cases herr : left.isErrorNode = true
        · rw [if_pos herr]
          exact ⟨hsub.1, fun _ => hsub.2 herr⟩
        · rw [if_neg herr]
          exact ihLoop precedence left p1 hsub.1 (eq_false_of_ne_true herr)
    have stepExpr : ∀ p : ParserState, p.current_token.isSome = true →
        (parser_parse_expression (n+1) p).2.current_token.isSome = true ∧
        ((parser_parse_expression (n+1) p).1.isErrorNode = true →
          (parser_parse_expression (n+1) p).2.had_error = true ∧
          (parser_parse_expression (n+1) p).2.last_error.isSome = true) := by
      intro p hp
      rcases hc : p.current_token with _ | tok
      · rw [hc] at hp
        cases hp
      · simp only [parser_parse_expression, hc]
        exact ihPrec 1 p hp
    exact ⟨stepPrim, stepPrec, stepLoop, stepExpr⟩

/-- C5 counterexample: on empty input (its first token is already the
end-of-input token) `parser_parse` does return an Error-kind node, but the
parser's sticky error flag stays clear and no diagnostic is retained,
contradicting the claim's "including the case where the input is empty".
-/
theorem C5_counterexample :
    (parser_parse (parser_create [])).1.isErrorNode = true ∧
    (parser_parse (parser_create [])).2.had_error = false ∧
    (parser_parse (parser_create [])).2.last_error = none := by
  refine ⟨rfl, rfl, rfl⟩

/-- C5 amended: `parser_parse` always returns a node (the embedding is
total, mirroring that every C path builds a node); whenever the result is
an Error-kind node, either the input's first token was already
end-of-input — in which case the Error node comes back with the error
flag still clear and no diagnostic — or the sticky error flag is set with
one retained diagnostic. -/
theorem C5_amended :
    (∀ ts : List Token,
       (parser_parse (parser_create ts)).1.isErrorNode = true →
       ((stream_next ts).1.type = .TOKEN_EOF ∧
        (parser_parse (parser_create ts)).2.had_error = false ∧
        (parser_parse (parser_create ts)).2.last_error = none) ∨
       ((parser_parse (parser_create ts)).2.had_error = true ∧
        (parser_parse (parser_create ts)).2.last_error.isSome = true)) ∧
    ((parser_parse (parser_create [])).1.isErrorNode = true ∧
     (parser_parse (parser_create [])).2.had_error = false ∧
     (parser_parse (parser_create [])).2.last_error = none) := by
  refine ⟨fun ts herr => ?_, rfl, rfl, rfl⟩
  rcases hs : stream_next ts with ⟨t0, ts'⟩
  have hadv : parser_advance
      { stream := ts, current_token := none, had_error := false, last_error := none } =
      { stream := ts', current_token := some t0, had_error := false,
        last_error := none } := by
    rw [parser_advance]
    simp [hs]
  by_cases hEOF : t0.type = .TOKEN_EOF
  · left
    refine ⟨hEOF, ?_, ?_⟩ <;>
      simp [parser_parse, parser_create, hadv, hEOF]
  · right
    have hrun := (parser_error_sets_flag (2 * ts'.length + 4)).2.2.2
      { stream := ts', current_token := some t0, had_error := false,
        last_error := none } rfl
    simp only [parser_parse, parser_create, hadv, Option.isNone_none] at herr ⊢
    simp [hEOF] at herr ⊢
    exact hrun.2 herr

/-- C5 witness: a lone semicolon is rejected at primary position with the
flag set and a diagnostic retained. -/
theorem C5_witness :
    (parser_parse (parser_create [tok_of .TOKEN_SEMICOLON ";"])).1.isErrorNode = true ∧
    (((stream_next [tok_of .TOKEN_SEMICOLON ";"]).1.type = .TOKEN_EOF ∧
      (parser_parse (parser_create [tok_of .TOKEN_SEMICOLON ";"])).2.had_error = false ∧
      (parser_parse (parser_create [tok_of .TOKEN_SEMICOLON ";"])).2.last_error = none) ∨
     ((parser_parse (parser_create [tok_of .TOKEN_SEMICOLON ";"])).2.had_error = true ∧
      (parser_parse (parser_create [tok_of .TOKEN_SEMICOLON ";"])).2.last_error.isSome = true)) :=
  ⟨rfl, C5_amended.1 [tok_of .TOKEN_SEMICOLON ";"] rfl⟩

end CompilerLearning
